import Mathlib

/-!
# uptimed: heartbeat persistence and boot notification

A shallow embedding of `uptimed.go` (and of the notifier of its predecessor
`uptime.go`), followed by theorems about the heartbeat store, the boot
notifier and the configuration phase of `main`.

The program's package-level variables and the files it touches are carried in
an explicit `State`; every outcome the program cannot control (the clock, the
result of a system call, the answer of the webhook) is supplied by an explicit
oracle argument. Each operation appends the calls it makes to `State.trace`.
-/

namespace Uptimed

/-! ## Go library functions used by the program -/

/-- A Go `error` value, kept as its message; `Option Error` is a possibly nil error. -/
abbrev Error := String

/-- Go `strings.Trim(s, cutset)`: `s` without the leading and trailing
characters that occur in `cutset`. -/
def stringsTrim (s cutset : String) : String :=
  ⟨(s.data.dropWhile (fun c => decide (c ∈ cutset.data))).rdropWhile
    (fun c => decide (c ∈ cutset.data))⟩

/-- Value of an ASCII decimal digit. -/
def digitValue (c : Char) : Nat := c.toNat - 48

/-- Value of a run of decimal digits, most significant first. -/
def digitsValue (cs : List Char) : Nat :=
  cs.foldl (fun acc c => acc * 10 + digitValue c) 0

/-- The digits of the argument of `strconv.Atoi`: the string without one leading sign. -/
def atoiDigits (cs : List Char) : List Char :=
  match cs with
  | [] => []
  | c :: rest => if c = '-' ∨ c = '+' then rest else c :: rest

/-- Go `strconv.Atoi` on a 64-bit platform: an optional sign followed by one
or more ASCII decimal digits, the value lying in the range of `int`. -/
def atoi (s : String) : Except Error Int :=
  let digits := atoiDigits s.data
  if digits = [] ∨ ¬ digits.all Char.isDigit = true then
    .error "invalid syntax"
  else if s.data.head? = some '-' then
    if digitsValue digits > 2 ^ 63 then .error "value out of range"
    else .ok (-(digitsValue digits : Int))
  else
    if digitsValue digits ≥ 2 ^ 63 then .error "value out of range"
    else .ok (digitsValue digits : Int)

/-- The layouts of Go's `time` package that the program uses. -/
inductive Layout where
  | RFC1123
deriving DecidableEq

/-- A Go `time.Time`, kept as the date and clock it shows in its own
location, together with the abbreviation of its zone and the offset of the zone
in seconds east of UTC. -/
structure Time where
  year : Int
  month : Nat
  day : Nat
  hour : Nat
  minute : Nat
  second : Nat
  nanosecond : Nat
  zone : String
  offset : Int
deriving DecidableEq

/-- The zero value of `time.Time`: January 1, year 1, 00:00:00 UTC. -/
def Time.zero : Time := ⟨1, 1, 1, 0, 0, 0, 0, "UTC", 0⟩

/-- Go `time.shortDayNames`. -/
def shortDayNames : List String := ["Sun", "Mon", "Tue", "Wed", "Thu", "Fri", "Sat"]

/-- Go `time.shortMonthNames`. -/
def shortMonthNames : List String :=
  ["Jan", "Feb", "Mar", "Apr", "May", "Jun", "Jul", "Aug", "Sep", "Oct", "Nov", "Dec"]

/-- Go `time.isLeap`. -/
def isLeap (year : Int) : Bool := year % 4 = 0 ∧ (year % 100 ≠ 0 ∨ year % 400 = 0)

/-- Go `time.daysIn`: the number of days of a month. -/
def daysIn (month : Nat) (year : Int) : Nat :=
  if month = 2 then (if isLeap year then 29 else 28)
  else if month = 4 ∨ month = 6 ∨ month = 9 ∨ month = 11 then 30
  else 31

/-- Go `Time.Weekday`, Sunday being 0, computed from the date of the
proleptic Gregorian calendar. -/
def Time.Weekday (t : Time) : Nat :=
  let y : Int := if t.month < 3 then t.year - 1 else t.year
  ((y + y / 4 - y / 100 + y / 400
    + ([0, 3, 2, 5, 0, 3, 5, 1, 4, 6, 2, 4].getD (t.month - 1) 0 : Nat) + (t.day : Nat)) % 7).toNat

/-- Decimal digits of a natural number, padded with zeros on the left up to `width`. -/
def padInt (x width : Nat) : List Char :=
  List.replicate (width - (Nat.toDigits 10 x).length) '0' ++ Nat.toDigits 10 x

/-- Go `time.appendInt`: a minus sign for a negative number, then the decimal
digits padded with zeros on the left up to `width`. -/
def appendInt (x : Int) (width : Nat) : List Char :=
  if x < 0 then '-' :: padInt x.natAbs width else padInt x.toNat width

/-- The zone offset as Go prints it for `-0700`: the sign, then hours and
minutes, the minutes being the offset divided by 60 with truncation. -/
def appendOffset (offset : Int) : List Char :=
  (if offset < 0 ∧ offset.natAbs / 60 ≠ 0 then '-' else '+')
    :: (padInt (offset.natAbs / 60 / 60) 2 ++ padInt (offset.natAbs / 60 % 60) 2)

/-- The zone as Go prints it for `MST`: the abbreviation, and the offset when
the zone has no abbreviation. -/
def appendZone (t : Time) : List Char :=
  if t.zone = "" then appendOffset t.offset else t.zone.data

/-- Go `Time.Format` for the layout `time.RFC1123`, "Mon, 02 Jan 2006 15:04:05 MST". -/
def Time.Format (t : Time) (layout : Layout) : String :=
  match layout with
  | .RFC1123 =>
    ⟨(shortDayNames.getD t.Weekday "").data ++ [',', ' '] ++ padInt t.day 2 ++ [' ']
      ++ (shortMonthNames.getD (t.month - 1) "").data ++ [' '] ++ appendInt t.year 4 ++ [' ']
      ++ padInt t.hour 2 ++ [':'] ++ padInt t.minute 2 ++ [':'] ++ padInt t.second 2
      ++ [' '] ++ appendZone t⟩

/-- Go `Time.String` of a time without a monotonic clock reading, which `%s`
prints: the layout "2006-01-02 15:04:05.999999999 -0700 MST", the fraction
only when it is not zero and without its trailing zeros. -/
def Time.String (t : Time) : String :=
  ⟨appendInt t.year 4 ++ ['-'] ++ padInt t.month 2 ++ ['-'] ++ padInt t.day 2 ++ [' ']
    ++ padInt t.hour 2 ++ [':'] ++ padInt t.minute 2 ++ [':'] ++ padInt t.second 2
    ++ (if t.nanosecond = 0 then []
        else '.' :: (padInt t.nanosecond 9).rdropWhile (fun c => decide (c = '0')))
    ++ [' '] ++ appendOffset t.offset ++ [' '] ++ appendZone t⟩

/-- Go `time.match` on one character: the same character, or the same letter
in the other case. -/
def matchChar (c1 c2 : Char) : Bool :=
  c1 = c2 ∨ ((c1.toNat ||| 32) = (c2.toNat ||| 32) ∧ 97 ≤ (c1.toNat ||| 32)
    ∧ (c1.toNat ||| 32) ≤ 122)

/-- Go `time.match` of a name of a table with the beginning of the value. -/
def matchName : List Char → List Char → Bool
  | [], _ => true
  | _ :: _, [] => false
  | n :: ns, v :: vs => matchChar v n && matchName ns vs

/-- Go `time.lookup`: the index of the first entry of `tab` that begins `val`,
letter case aside, and what follows it. -/
def lookup : List String → Nat → List Char → Option (Nat × List Char)
  | [], _, _ => none
  | v :: tab, i, val =>
    if matchName v.data val then some (i, val.drop v.data.length) else lookup tab (i + 1) val

/-- Go `time.cutspace`: the value without its leading blanks. -/
def cutspace (value : List Char) : List Char := value.dropWhile (fun c => decide (c = ' '))

/-- Go `time.skip`, the literal text `lit` of the layout being removed from
the front of the value: a run of blanks of the layout matches any number of
blanks, which have to begin the value unless the value is empty. The flag tells
that the previous character of the layout was a blank. -/
def skipFrom : Bool → List Char → List Char → Option (List Char)
  | _, [], value => some value
  | afterBlank, p :: ps, value =>
    if p = ' ' then
      if afterBlank then skipFrom true ps value
      else if value ≠ [] ∧ value.head? ≠ some ' ' then none
      else skipFrom true ps (cutspace value)
    else
      match value with
      | [] => none
      | v :: vs => if v = p then skipFrom false ps vs else none

/-- Go `time.skip`. -/
def skip (value lit : List Char) : Option (List Char) := skipFrom false lit value

/-- Go `time.getnum`: a number of two digits, or of one digit when `fixed` is
false and no second digit follows, and the rest of the value. -/
def getnum (value : List Char) (fixed : Bool) : Option (Nat × List Char) :=
  match value with
  | [] => none
  | c0 :: rest =>
    if c0.isDigit then
      match rest with
      | [] => if fixed then none else some (digitValue c0, [])
      | c1 :: rest1 =>
        if c1.isDigit then some (digitValue c0 * 10 + digitValue c1, rest1)
        else if fixed then none
        else some (digitValue c0, c1 :: rest1)
    else none

/-- The year of the layout `2006`: four digits, and the rest of the value. -/
def getyear (value : List Char) : Option (Nat × List Char) :=
  if 4 ≤ value.length ∧ (value.take 4).all Char.isDigit = true then
    some (digitsValue (value.take 4), value.drop 4)
  else none

/-- Go `time.commaOrPeriod`. -/
def commaOrPeriod (c : Char) : Bool := c = '.' ∨ c = ','

/-- The fractional second that `time.Parse` reads after the seconds when the
layout has none: the nanoseconds given by its first nine digits, and the value
after all of its digits. Without a fraction the nanoseconds are 0. -/
def parseFraction (value : List Char) : Nat × List Char :=
  match value with
  | c :: d :: rest =>
    if commaOrPeriod c ∧ d.isDigit then
      (digitsValue (((d :: rest).takeWhile Char.isDigit).take 9)
          * 10 ^ (9 - (((d :: rest).takeWhile Char.isDigit).take 9).length),
        (d :: rest).dropWhile Char.isDigit)
    else (0, value)
  | _ => (0, value)

/-- An ASCII capital letter. -/
def isUpper (c : Char) : Bool := 'A' ≤ c ∧ c ≤ 'Z'

/-- Go `time.parseSignedOffset`: the length of a sign followed by digits whose
value is at most 23, and 0 when the value does not begin so. -/
def parseSignedOffset (value : List Char) : Nat :=
  match value with
  | [] => 0
  | sign :: rest =>
    if sign = '-' ∨ sign = '+' then
      if rest.takeWhile Char.isDigit = [] ∨ 23 < digitsValue (rest.takeWhile Char.isDigit) then 0
      else 1 + (rest.takeWhile Char.isDigit).length
    else 0

/-- Go `time.parseGMT`: the length of `GMT` with the signed hours that may follow. -/
def parseGMT (value : List Char) : Nat :=
  if value.drop 3 = [] then 3 else 3 + parseSignedOffset (value.drop 3)

/-- Go `time.parseTimeZone`: the length of the zone abbreviation that begins `value`. -/
def parseTimeZone (value : List Char) : Option Nat :=
  if value.length < 3 then none
  else if value.take 4 = "ChST".data ∨ value.take 4 = "MeST".data then some 4
  else if value.take 3 = "GMT".data then some (parseGMT value)
  else if value.head? = some '+' ∨ value.head? = some '-' then
    (if 0 < parseSignedOffset value then some (parseSignedOffset value) else none)
  else
    let nUpper := ((value.take 6).takeWhile isUpper).length
    if nUpper = 3 then some 3
    else if nUpper = 4 then
      (if value.get? 3 = some 'T' ∨ value.take 4 = "WITA".data then some 4 else none)
    else if nUpper = 5 then (if value.get? 4 = some 'T' then some 5 else none)
    else none

/-- The zone of the layout `MST`: `none` for `UTC`, otherwise the abbreviation
found by `parseTimeZone`; and the rest of the value. -/
def parseZone (value : List Char) : Option (Option (List Char) × List Char) :=
  if value.take 3 = "UTC".data then some (none, value.drop 3)
  else (parseTimeZone value).map fun n => (some (value.take n), value.drop n)

/-- The date of an RFC1123 value, "Mon, 02 Jan 2006": day, month, year and the rest. -/
def parseDate (value : List Char) : Option ((Nat × Nat × Nat) × List Char) :=
  (lookup shortDayNames 0 value).bind fun w =>
  (skip w.2 [',', ' ']).bind fun v =>
  (getnum v true).bind fun day =>
  (skip day.2 [' ']).bind fun v =>
  (lookup shortMonthNames 0 v).bind fun month =>
  (skip month.2 [' ']).bind fun v =>
  (getyear v).bind fun year =>
  some ((day.1, month.1 + 1, year.1), year.2)

/-- The hour, minute and second of an RFC1123 value, "15:04:05", each in its
range, and the rest. -/
def parseHMS (value : List Char) : Option ((Nat × Nat × Nat) × List Char) :=
  (getnum value false).bind fun hour =>
  (skip hour.2 [':']).bind fun v =>
  (getnum v true).bind fun minute =>
  (skip minute.2 [':']).bind fun v =>
  (getnum v true).bind fun second =>
  if hour.1 < 24 ∧ minute.1 < 60 ∧ second.1 < 60 then
    some ((hour.1, minute.1, second.1), second.2)
  else none

/-- The day before, in the calendar. -/
def Time.previousDay (t : Time) : Time :=
  if 1 < t.day then { t with day := t.day - 1 }
  else if 1 < t.month then { t with month := t.month - 1, day := daysIn (t.month - 1) t.year }
  else { t with year := t.year - 1, month := 12, day := 31 }

/-- The day after, in the calendar. -/
def Time.nextDay (t : Time) : Time :=
  if t.day < daysIn t.month t.year then { t with day := t.day + 1 }
  else if t.month < 12 then { t with month := t.month + 1, day := 1 }
  else { t with year := t.year + 1, month := 1, day := 1 }

/-- The date and clock `hours` hours later (earlier when negative), for fewer
than 24 hours. -/
def Time.addHours (t : Time) (hours : Int) : Time :=
  if (t.hour : Int) + hours < 0 then
    { t.previousDay with hour := ((t.hour : Int) + hours + 24).toNat }
  else if 24 ≤ (t.hour : Int) + hours then
    { t.nextDay with hour := ((t.hour : Int) + hours - 24).toNat }
  else { t with hour := ((t.hour : Int) + hours).toNat }

/-- Go `*time.Location` as far as `time.Parse` consults `time.Local`. The zone
database of the host is not part of the program, so the two things that
`time.Parse` asks of it are parameters. -/
structure Location where
  /-- Go `l.lookupName(name, unix)`: the offset in seconds east of UTC of the
  zone called `name`, `unix` being the date and clock of the given time taken
  in UTC; `none` when the location has no zone of that name. -/
  lookupName : String → Time → Option Int
  /-- Go `t.addSec(-offset)` followed by `t.setLoc(l)`: the date, clock and
  zone that the location shows for the instant `offset` seconds before the date
  and clock of the given time taken in UTC. -/
  localTime : Time → Int → Time

/-- The signed hours after `GMT` in a zone such as `GMT+3`, Go `atoi(zoneName[3:])`. -/
def gmtHours (value : List Char) : Int :=
  match value with
  | '-' :: digits => -(digitsValue digits : Int)
  | '+' :: digits => (digitsValue digits : Int)
  | digits => (digitsValue digits : Int)

/-- The end of `time.Parse`, `t` being `Date(year, month, day, hour, min, sec,
nsec, UTC)`. For `UTC` that is the result. For an abbreviation that
`time.Local` has, it is the time that `time.Local` shows for the instant the
offset before `t`. Otherwise the result is in a zone made up for the
abbreviation (`FixedZone`): `GMT` with hours is a zone of that offset, in which
the date and clock shown are those of `t` moved by the hours; any other
abbreviation is a zone of offset 0. -/
def resolveZone (loc : Location) (t : Time) (zone : Option (List Char)) : Time :=
  match zone with
  | none => t
  | some z =>
    match loc.lookupName ⟨z⟩ t with
    | some offset => loc.localTime t offset
    | none =>
      if 3 < z.length ∧ z.take 3 = "GMT".data then
        ({ t with zone := ⟨z⟩, offset := gmtHours (z.drop 3) * 3600 }).addHours
          (gmtHours (z.drop 3))
      else { t with zone := ⟨z⟩, offset := 0 }

/-- An RFC1123 value read piece by piece as `time.Parse` reads it with the
layout "Mon, 02 Jan 2006 15:04:05 MST": nothing may precede the day name or
follow the zone, and the day has to exist in its month. -/
def parseRFC1123 (loc : Location) (value : List Char) : Option Time :=
  (parseDate value).bind fun d =>
  (skip d.2 [' ']).bind fun v =>
  (parseHMS v).bind fun c =>
  (skip (parseFraction c.2).2 [' ']).bind fun v =>
  (parseZone v).bind fun z =>
  if z.2 = [] ∧ 1 ≤ d.1.1 ∧ d.1.1 ≤ daysIn d.1.2.1 d.1.2.2 then
    some (resolveZone loc
      ⟨d.1.2.2, d.1.2.1, d.1.1, c.1.1, c.1.2.1, c.1.2.2, (parseFraction c.2).1, "UTC", 0⟩ z.1)
  else none

/-- Go `time.Parse` for the layout `time.RFC1123`, `loc` being `time.Local`.
Every failure is the one error value: the text of the `*time.ParseError` is
not modelled. -/
def timeParse (loc : Location) (layout : Layout) (value : String) : Except Error Time :=
  match layout with
  | .RFC1123 =>
    match parseRFC1123 loc value.data with
    | some t => .ok t
    | none => .error "parsing time: cannot parse value"

/-- A time of the calendar: the year in 0 to 9999, the day in its month, the
clock in its ranges. -/
def Time.valid (t : Time) : Prop :=
  0 ≤ t.year ∧ t.year ≤ 9999 ∧ 1 ≤ t.month ∧ t.month ≤ 12 ∧ 1 ≤ t.day
    ∧ t.day ≤ daysIn t.month t.year ∧ t.hour < 24 ∧ t.minute < 60 ∧ t.second < 60
    ∧ t.nanosecond < 1000000000

instance (t : Time) : Decidable t.valid := by
  unfold Time.valid; infer_instance

/-- The time without its fraction of a second, which the RFC1123 layout does not print. -/
def Time.truncateSecond (t : Time) : Time := { t with nanosecond := 0 }

/-- The date and clock of the time without fraction of a second, taken in UTC:
what `time.Parse` has read of the RFC1123 text of the time before it turns to the zone. -/
def Time.printedInUTC (t : Time) : Time := { t.truncateSecond with zone := "UTC", offset := 0 }

/-- A time that `time.Parse` with `time.Local` being `loc` reads back from its
RFC1123 text: either its zone is `UTC` with the offset 0; or its abbreviation
does not begin with `UTC`, `parseTimeZone` reads it in full, and `loc`, asked
for the abbreviation at the date and clock printed, answers an offset at which
it shows the time itself, as it does at the time `time.Now()` returned it. -/
def Time.zoneReadable (loc : Location) (t : Time) : Prop :=
  (t.zone = "UTC" ∧ t.offset = 0) ∨
  (t.zone.data.take 3 ≠ "UTC".data ∧ parseTimeZone t.zone.data = some t.zone.data.length
    ∧ (loc.lookupName t.zone t.printedInUTC).map (loc.localTime t.printedInUTC) =
        some t.truncateSecond)

instance (loc : Location) (t : Time) : Decidable (t.zoneReadable loc) := by
  unfold Time.zoneReadable; infer_instance

/-- Two times that agree down to the minute. -/
def Time.sameMinute (a b : Time) : Prop :=
  a.year = b.year ∧ a.month = b.month ∧ a.day = b.day ∧ a.hour = b.hour
    ∧ a.minute = b.minute ∧ a.zone = b.zone ∧ a.offset = b.offset

instance (a b : Time) : Decidable (a.sameMinute b) := by
  unfold Time.sameMinute; infer_instance

/-- Go `unicode.IsSpace` on Latin-1: tab, line feed, vertical tab, form feed,
carriage return, space, next line and no-break space. -/
def isSpace (c : Char) : Bool :=
  c = '\t' ∨ c = '\n' ∨ c = '\x0b' ∨ c = '\x0c' ∨ c = '\r' ∨ c = ' ' ∨ c = '\u0085'
    ∨ c = '\u00a0'

/-- Go `path.Dir` on a clean slash-separated path: what precedes the last
slash, `/` for an entry of the root and `.` for a bare name. -/
def pathDir (p : String) : String :=
  if '/' ∈ p.data then
    let d := (p.data.rdropWhile (fun c => decide (c ≠ '/'))).dropLast
    if d = [] then "/" else ⟨d⟩
  else "."

/-- Go `os.joinPath`: the directory and the name, with one separator between them. -/
def joinPath (dir name : String) : String :=
  if dir.data.getLast? = some '/' then dir ++ name else dir ++ "/" ++ name

/-- Go `filepath.Abs` on a clean path: the path itself when it is rooted,
otherwise the path joined to the working directory. -/
def absPath (wd p : String) : String :=
  if p.data.head? = some '/' then p else joinPath wd p

/-! ## Program state and the outside world -/

/-- The calls the program makes on the outside world, in the order it makes them. -/
inductive Event where
  | createTemp (dir pattern : String) (name : Option String)
  | write (name data : String) (ok : Bool)
  | sync (name : String) (ok : Bool)
  | close (name : String)
  | remove (name : String) (ok : Bool)
  | rename (oldpath newpath : String) (ok : Bool)
  | stat (name : String)
  | openFile (name : String) (ok : Bool)
  | readAll (name : String) (ok : Bool)
  | say (message : String) (ok : Bool)
  | stderr (text : String)
deriving DecidableEq

/-- The package-level variables of `uptimed.go` (with `discord.WebhookURL`),
the files of the machine by path, and the calls made so far. -/
structure State where
  heartbeatFile : String
  heartbeatFrequencyMinutes : Nat
  didNotifyStartup : Nat
  lastHeartbeatBeforeReboot : Time
  workingDir : String
  discordWebhookURL : String
  files : String → Option String
  trace : List Event

/-- The state a process starts in: the initial values of the package-level variables. -/
def initialState (files : String → Option String) : State :=
  { heartbeatFile := ".uptimed_heartbeat"
    heartbeatFrequencyMinutes := 10
    didNotifyStartup := 0
    lastHeartbeatBeforeReboot := Time.zero
    workingDir := ""
    discordWebhookURL := ""
    files := files
    trace := [] }

/-- Source `heartbeatLayout`. -/
def heartbeatLayout : Layout := Layout.RFC1123

/-- Record a call. -/
def State.emit (s : State) (e : Event) : State := { s with trace := s.trace ++ [e] }

/-- A call of `discord.Say`. -/
def Event.isSay : Event → Bool
  | .say _ _ => true
  | _ => false

/-- A call of `discord.Say` that returned no error. -/
def Event.isDelivery : Event → Bool
  | .say _ ok => ok
  | _ => false

/-- A call that consults the heartbeat store: `os.Stat`, `os.OpenFile` or `io.ReadAll`. -/
def Event.isStoreRead : Event → Bool
  | .stat _ => true
  | .openFile _ _ => true
  | .readAll _ _ => true
  | _ => false

/-- A call of `os.Rename`. -/
def Event.isRename : Event → Bool
  | .rename _ _ _ => true
  | _ => false

/-- The calls of `discord.Say` in a trace. -/
def sends (trace : List Event) : List Event := trace.filter Event.isSay

/-- The number of calls of `discord.Say` in a trace that returned no error. -/
def deliveries (trace : List Event) : Nat := (trace.filter Event.isDelivery).length

/-- The calls in a trace that consult the heartbeat store. -/
def storeReads (trace : List Event) : List Event := trace.filter Event.isStoreRead

/-- The calls of `os.Rename` in a trace. -/
def renames (trace : List Event) : List Event := trace.filter Event.isRename

/-- The state `s1` comes from `s` by a change of the files and by further
calls, none of which consults the store or sends a message. -/
def State.storeStep (s s1 : State) : Prop :=
  ∃ files evs, s1 = { s with files := files, trace := s.trace ++ evs } ∧
    ∀ e ∈ evs, e.isSay = false ∧ e.isDelivery = false ∧ e.isStoreRead = false

/-- What the environment decides during one `writeHeartbeat`. -/
structure WriteOracle where
  /-- The value of `time.Now()`. -/
  now : Time
  /-- The value of `os.TempDir()`. -/
  tempDir : String
  /-- The successive random name endings `os.CreateTemp` tries. -/
  randoms : List String
  /-- Whether `os.CreateTemp` fails for a reason other than a name in use. -/
  createErr : Bool
  writeErr : Bool
  syncErr : Bool
  renameErr : Bool
  removeErr : Bool

/-- What the environment decides during one `readLastHeartbeat`. -/
structure ReadOracle where
  /-- Whether `os.Stat` fails with an error other than "does not exist". -/
  statErr : Bool
  openErr : Bool
  readErr : Bool
  /-- The zones of `time.Local`, which `time.Parse` consults. -/
  localZones : Location

/-- What the environment decides during one `notifyStartup`. -/
structure NotifyOracle where
  read : ReadOracle
  /-- The result of `os.Hostname()`, `none` for an error. -/
  hostname : Option String
  /-- Whether `discord.Say` returns an error. -/
  sayErr : Bool

/-- What the environment decides during one iteration of the loop of `main`. -/
structure TickOracle where
  notify : NotifyOracle
  write : WriteOracle

/-- Go `os.CreateTemp(dir, pattern)` for a pattern without `*`: the path of the
new file, the first of up to 10000 candidate names that is not in use, in
`dir` or, when `dir` is empty, in `os.TempDir()`. -/
def createTemp (s : State) (o : WriteOracle) (dir pattern : String) : Option String :=
  let dir := if dir = "" then o.tempDir else dir
  let stem := joinPath dir pattern
  if o.createErr then none
  else ((o.randoms.take 10000).find? (fun r => s.files (stem ++ r) = none)).map (stem ++ ·)

/-- The files after `os.Rename(oldpath, newpath)` succeeded. -/
def renameFile (files : String → Option String) (oldpath newpath : String) :
    String → Option String :=
  fun p => if p = newpath then files oldpath else if p = oldpath then none else files p

/-- The files after the file at `name` received the contents `data`. -/
def putFile (files : String → Option String) (name data : String) : String → Option String :=
  fun p => if p = name then some data else files p

/-- The files after `os.Remove(name)` succeeded. -/
def removeFile (files : String → Option String) (name : String) : String → Option String :=
  fun p => if p = name then none else files p

/-! ## The heartbeat store -/

/-- Source `writeHeartbeat`. -/
def writeHeartbeat (s : State) (o : WriteOracle) : State :=
  match createTemp s o s.workingDir "uptimed" with
  | none =>
    (s.emit (.createTemp s.workingDir "uptimed" none)).emit
      (.stderr "Error opening temporary file for writing: createtemp failed\n")
  | some f =>
    let s1 := { s with files := putFile s.files f "" }.emit
      (.createTemp s.workingDir "uptimed" (some f))
    if o.writeErr then
      let s2 := ((s1.emit (.write f (o.now.Format heartbeatLayout) false)).emit
        (.stderr "Error writing heartbeat file: write failed\n")).emit (.close f)
      if o.removeErr then s2.emit (.remove f false)
      else { s2 with files := removeFile s2.files f }.emit (.remove f true)
    else
      let s2 := { s1 with files := putFile s1.files f (o.now.Format heartbeatLayout) }.emit
        (.write f (o.now.Format heartbeatLayout) true)
      let s3 :=
        if o.syncErr then
          (s2.emit (.sync f false)).emit (.stderr "Error syncing heartbeat file: sync failed\n")
        else s2.emit (.sync f true)
      let s4 := s3.emit (.close f)
      if o.renameErr then
        (s4.emit (.rename f s.heartbeatFile false)).emit
          (.stderr "Error writing heartbeat file: rename failed\n")
      else
        { s4 with files := renameFile s4.files f s.heartbeatFile }.emit
          (.rename f s.heartbeatFile true)

/-- The outcome of `os.Stat`. -/
inductive StatResult where
  | ok
  | notExist
  | otherError
deriving DecidableEq

/-- Go `os.Stat(name)`. -/
def osStat (s : State) (o : ReadOracle) (name : String) : StatResult :=
  if o.statErr then .otherError
  else if s.files name = none then .notExist
  else .ok

/-- Source `fileExists`: false only when `os.Stat` reports that the file does not exist. -/
def fileExists (s : State) (o : ReadOracle) (filePath : String) : Bool × State :=
  match osStat s o filePath with
  | .notExist => (false, s.emit (.stat filePath))
  | _ => (true, s.emit (.stat filePath))

/-- Go `os.OpenFile(name, os.O_RDONLY, 0644)`: the error of the open, or the
contents that `io.ReadAll` will find in the opened file. -/
def osOpenFile (s : State) (o : ReadOracle) (name : String) : Except Error String :=
  if o.openErr then .error "open: permission denied"
  else
    match s.files name with
    | none => .error "open: no such file or directory"
    | some data => .ok data

/-- Source `readLastHeartbeat`: the pointer result, the error, and the state. -/
def readLastHeartbeat (s : State) (o : ReadOracle) : (Option Time × Option Error) × State :=
  let e := fileExists s o s.heartbeatFile
  if e.1 = false then ((none, none), e.2)
  else
    match osOpenFile e.2 o s.heartbeatFile with
    | .error err => ((none, some err), e.2.emit (.openFile s.heartbeatFile false))
    | .ok contents =>
      let s1 := e.2.emit (.openFile s.heartbeatFile true)
      if o.readErr then
        ((none, some "read: input/output error"),
          (s1.emit (.readAll s.heartbeatFile false)).emit (.close s.heartbeatFile))
      else
        let s2 := s1.emit (.readAll s.heartbeatFile true)
        match timeParse o.localZones heartbeatLayout (stringsTrim contents "\n ") with
        | .error err => ((none, some err), s2.emit (.close s.heartbeatFile))
        | .ok heartbeat =>
          ((some heartbeat, none),
            { s2 with lastHeartbeatBeforeReboot := heartbeat }.emit (.close s.heartbeatFile))

/-- The run of `writeHeartbeat` reaches its end: the temporary file is created
and written, and the rename succeeds. -/
def WriteOracle.succeeds (o : WriteOracle) (s : State) : Prop :=
  (createTemp s o s.workingDir "uptimed").isSome = true ∧ o.writeErr = false
    ∧ o.renameErr = false

instance (o : WriteOracle) (s : State) : Decidable (o.succeeds s) := by
  unfold WriteOracle.succeeds; infer_instance

/-- No system call of `readLastHeartbeat` is made to fail. -/
def ReadOracle.faultless (o : ReadOracle) : Prop :=
  o.statErr = false ∧ o.openErr = false ∧ o.readErr = false

instance (o : ReadOracle) : Decidable o.faultless := by
  unfold ReadOracle.faultless; infer_instance

/-! ## The boot notifier -/

/-- Source `getHostname`. -/
def getHostname (hostname : Option String) : String :=
  match hostname with
  | none => "UNKNOWN_HOSTNAME"
  | some name => name

/-- The message `notifyStartup` builds with `fmt.Sprintf`. -/
def startupMessage (hostname : Option String) (lastHeartbeat : Time) : String :=
  "System **" ++ getHostname hostname ++ "** has booted. Last heartbeat was at **"
    ++ lastHeartbeat.String ++ "**"

/-- The end of source `notifyStartup`: build the message, send it with
`discord.Say` and record the outcome in `didNotifyStartup`. -/
def notifyStartupSay (s : State) (o : NotifyOracle) (lastHeartbeat : Time) : State :=
  if o.sayErr then
    { (s.emit (.say (startupMessage o.hostname lastHeartbeat) false)).emit
        (.stderr "Error sending discord notification: say failed\n") with didNotifyStartup := 1 }
  else
    { s.emit (.say (startupMessage o.hostname lastHeartbeat) true) with didNotifyStartup := 2 }

/-- Source `notifyStartup`. -/
def notifyStartup (s : State) (o : NotifyOracle) : State :=
  if s.discordWebhookURL = "" then s
  else if s.didNotifyStartup = 2 then s
  else if s.didNotifyStartup = 1 then notifyStartupSay s o s.lastHeartbeatBeforeReboot
  else
    match readLastHeartbeat s o.read with
    | ((_, some err), s1) => s1.emit (.stderr ("Error getting last heartbeat: " ++ err ++ "\n"))
    | ((none, none), s1) => { s1 with didNotifyStartup := 2 }
    | ((some last, none), s1) => notifyStartupSay s1 o last

/-! ## The scheduler loop -/

/-- One iteration of the loop of source `main`: `notifyStartup()`, then
`writeHeartbeat()`; the sleep that follows changes nothing. -/
def tick (s : State) (o : TickOracle) : State :=
  writeHeartbeat (notifyStartup s o.notify) o.write

/-- The first iterations of the loop of `main`, one for each oracle. -/
def mainLoop (s : State) (os : List TickOracle) : State :=
  os.foldl tick s

/-! ## Configuration: `parseFrequency` and the part of `main` before the loop -/

/-- Source `parseFrequency`: the `uint16` result and the error. -/
def parseFrequency (strValue : String) : Nat × Option Error :=
  match atoi strValue with
  | .error err => (0, some err)
  | .ok value =>
    if value < 0 ∨ value > 65535 then
      (0, some "value out of range for uint16")
    else
      (value.toNat % 65536, none)


/-- What the process finds when it starts: the result of `os.Getwd()`, the
environment variables (empty when unset) and `os.Args[1:]`. -/
structure ProcessEnv where
  getwd : Except Error String
  HEARTBEAT_FILE : String
  HEARTBEAT_FREQUENCY : String
  DISCORD_WEBHOOK_URL : String
  args : List String

/-- The part of source `main` that reads the environment variables. -/
def mainEnv (e : ProcessEnv) (s : State) : State :=
  let s1 := if e.HEARTBEAT_FILE ≠ "" then { s with heartbeatFile := e.HEARTBEAT_FILE } else s
  let s2 :=
    if e.HEARTBEAT_FREQUENCY ≠ "" then
      if (parseFrequency e.HEARTBEAT_FREQUENCY).1 > 0 then
        { s1 with heartbeatFrequencyMinutes := (parseFrequency e.HEARTBEAT_FREQUENCY).1 }
      else s1
    else s1
  if e.DISCORD_WEBHOOK_URL ≠ "" then { s2 with discordWebhookURL := e.DISCORD_WEBHOOK_URL }
  else s2

/-- The loop of source `main` over the arguments; `none` when it ends the
process through `printHelpAndExit`. -/
def mainArgs : List String → State → Option State
  | [], s => some s
  | [_], _ => none
  | arg :: value :: rest, s =>
    if arg = "-h" ∨ arg = "--heartbeat-file" then
      mainArgs rest { s with heartbeatFile := value }
    else if arg = "-f" ∨ arg = "--heartbeat-frequency" then
      match parseFrequency value with
      | (_, some _) => none
      | (frequency, none) => mainArgs rest { s with heartbeatFrequencyMinutes := frequency }
    else if arg = "-d" ∨ arg = "--discord-webhook-url" then
      mainArgs rest { s with discordWebhookURL := value }
    else none

/-- Source `main` up to its loop: the state in which the loop starts, `none`
when the process ends before (a panic, or `printHelpAndExit`). -/
def mainSetup (e : ProcessEnv) (s : State) : Option State :=
  match e.getwd with
  | .error _ => none
  | .ok wd =>
    match mainArgs e.args (mainEnv e { s with workingDir := wd }) with
    | none => none
    | some s1 =>
      if s1.heartbeatFile = "" then none
      else if s1.heartbeatFrequencyMinutes = 0 then none
      else some s1

/-- Source `main`: the configuration, then the first iterations of the loop. -/
def main (e : ProcessEnv) (files : String → Option String) (os : List TickOracle) :
    Option State :=
  (mainSetup e (initialState files)).map (fun s => mainLoop s os)

/-! ## The predecessor `uptime.go`

The same store and notifier; the heartbeat is written as the decimal count of
nanoseconds since 1970, the temporary file is made in `os.TempDir()` and is
not synced, and the notifier keeps the last heartbeat as that count. -/

namespace Legacy

/-- The package-level variables of `uptime.go` (with `discord.WebhookURL`),
the files of the machine by path, and the calls made so far. -/
structure State where
  heartbeatFile : String
  heartbeatFrequencyMinutes : Nat
  didNotifyStartup : Nat
  lastHeartbeatBeforeReboot : Int
  discordWebhookURL : String
  files : String → Option String
  trace : List Event

/-- The state a process starts in: the initial values of the package-level variables. -/
def initialState (files : String → Option String) : State :=
  { heartbeatFile := ".uptime_heartbeat"
    heartbeatFrequencyMinutes := 10
    didNotifyStartup := 0
    lastHeartbeatBeforeReboot := 0
    discordWebhookURL := ""
    files := files
    trace := [] }

/-- Record a call. -/
def State.emit (s : State) (e : Event) : State := { s with trace := s.trace ++ [e] }

/-- What the environment decides during one `writeHeartbeat`. -/
structure WriteOracle where
  /-- The value of `time.Now().UnixNano()`. -/
  now : Int
  /-- The value of `os.TempDir()`. -/
  tempDir : String
  /-- The successive random name endings `ioutil.TempFile` tries. -/
  randoms : List String
  /-- Whether `ioutil.TempFile` fails for a reason other than a name in use. -/
  createErr : Bool
  writeErr : Bool
  renameErr : Bool
  removeErr : Bool

/-- What the environment decides during one `notifyStartup`. -/
structure NotifyOracle where
  read : ReadOracle
  /-- The result of `os.Hostname()`, `none` for an error. -/
  hostname : Option String
  /-- Whether `discord.Say` returns an error. -/
  sayErr : Bool

/-- What the environment decides during one iteration of the loop of `main`. -/
structure TickOracle where
  notify : NotifyOracle
  write : WriteOracle

/-- Go `ioutil.TempFile(dir, pattern)` for a pattern without `*`: the path of
the new file, the first of up to 10000 candidate names that is not in use, in
`dir` or, when `dir` is empty, in `os.TempDir()`. -/
def tempFile (s : State) (o : WriteOracle) (dir pattern : String) : Option String :=
  let dir := if dir = "" then o.tempDir else dir
  let stem := joinPath dir pattern
  if o.createErr then none
  else ((o.randoms.take 10000).find? (fun r => s.files (stem ++ r) = none)).map (stem ++ ·)

/-- Source `writeHeartbeat` of `uptime.go`. -/
def writeHeartbeat (s : State) (o : WriteOracle) : State :=
  match tempFile s o "" "uptime" with
  | none =>
    (s.emit (.createTemp "" "uptime" none)).emit
      (.stderr "Error opening temporary file for writing: tempfile failed\n")
  | some f =>
    let s1 := { s with files := putFile s.files f "" }.emit (.createTemp "" "uptime" (some f))
    if o.writeErr then
      let s2 := ((s1.emit (.write f (toString o.now) false)).emit
        (.stderr "Error writing heartbeat file: write failed\n")).emit (.close f)
      if o.removeErr then s2.emit (.remove f false)
      else { s2 with files := removeFile s2.files f }.emit (.remove f true)
    else
      let s2 := { s1 with files := putFile s1.files f (toString o.now) }.emit
        (.write f (toString o.now) true)
      let s3 := s2.emit (.close f)
      if o.renameErr then
        (s3.emit (.rename f s.heartbeatFile false)).emit
          (.stderr "Error writing heartbeat file: rename failed\n")
      else
        { s3 with files := renameFile s3.files f s.heartbeatFile }.emit
          (.rename f s.heartbeatFile true)

/-- Go `os.Stat(name)`. -/
def osStat (s : State) (o : ReadOracle) (name : String) : StatResult :=
  if o.statErr then .otherError
  else if s.files name = none then .notExist
  else .ok

/-- Source `fileExists` of `uptime.go`. -/
def fileExists (s : State) (o : ReadOracle) (filePath : String) : Bool × State :=
  match osStat s o filePath with
  | .notExist => (false, s.emit (.stat filePath))
  | _ => (true, s.emit (.stat filePath))

/-- Go `os.OpenFile(name, os.O_RDONLY, 0644)`: the error of the open, or the
contents that `ioutil.ReadAll` will find in the opened file. -/
def osOpenFile (s : State) (o : ReadOracle) (name : String) : Except Error String :=
  if o.openErr then .error "open: permission denied"
  else
    match s.files name with
    | none => .error "open: no such file or directory"
    | some data => .ok data

/-- Go `strconv.ParseInt(s, 10, 64)`: the grammar and the range of `strconv.Atoi`
on a 64-bit platform. -/
def parseInt64 (s : String) : Except Error Int := atoi s

/-- Source `readLastHeartbeat` of `uptime.go`: the pointer result, the error,
and the state. `formatMinute n` stands for
`time.Unix(0, n).Format("2006-01-02 15:04")`. -/
def readLastHeartbeat (formatMinute : Int → String) (s : State) (o : ReadOracle) :
    (Option String × Option Error) × State :=
  let e := fileExists s o s.heartbeatFile
  if e.1 = false then ((none, none), e.2)
  else
    match osOpenFile e.2 o s.heartbeatFile with
    | .error err => ((none, some err), e.2.emit (.openFile s.heartbeatFile false))
    | .ok contents =>
      let s1 := e.2.emit (.openFile s.heartbeatFile true)
      if o.readErr then
        ((none, some "read: input/output error"),
          (s1.emit (.readAll s.heartbeatFile false)).emit (.close s.heartbeatFile))
      else
        let s2 := s1.emit (.readAll s.heartbeatFile true)
        match parseInt64 (stringsTrim contents "\n ") with
        | .error err => ((none, some err), s2.emit (.close s.heartbeatFile))
        | .ok nano =>
          ((some (formatMinute nano), none),
            { s2 with lastHeartbeatBeforeReboot := nano }.emit (.close s.heartbeatFile))

/-- The message `notifyStartup` builds with `fmt.Sprintf`. -/
def startupMessage (hostname : Option String) (lastHeartbeat : String) : String :=
  "System **" ++ getHostname hostname ++ "** has booted. Last heartbeat was at **"
    ++ lastHeartbeat ++ "**"

/-- The end of source `notifyStartup` of `uptime.go`: build the message, send
it with `discord.Say` and record the outcome in `didNotifyStartup`. -/
def notifyStartupSay (s : State) (o : NotifyOracle) (lastHeartbeat : String) : State :=
  if o.sayErr then
    { (s.emit (.say (startupMessage o.hostname lastHeartbeat) false)).emit
        (.stderr "Error sending discord notification: say failed\n") with didNotifyStartup := 1 }
  else
    { s.emit (.say (startupMessage o.hostname lastHeartbeat) true) with didNotifyStartup := 2 }

/-- Source `notifyStartup` of `uptime.go`. -/
def notifyStartup (formatMinute : Int → String) (s : State) (o : NotifyOracle) : State :=
  if s.discordWebhookURL = "" then s
  else if s.didNotifyStartup = 2 then s
  else if s.didNotifyStartup = 1 then
    notifyStartupSay s o (formatMinute s.lastHeartbeatBeforeReboot)
  else
    match readLastHeartbeat formatMinute s o.read with
    | ((_, some err), s1) => s1.emit (.stderr ("Error getting last heartbeat: " ++ err ++ "\n"))
    | ((none, none), s1) => { s1 with didNotifyStartup := 2 }
    | ((some last, none), s1) => notifyStartupSay s1 o last

/-- One iteration of the loop of source `main` of `uptime.go`. -/
def tick (formatMinute : Int → String) (s : State) (o : TickOracle) : State :=
  writeHeartbeat (notifyStartup formatMinute s o.notify) o.write

/-- The first iterations of the loop of `main` of `uptime.go`, one for each oracle. -/
def mainLoop (formatMinute : Int → String) (s : State) (os : List TickOracle) : State :=
  os.foldl (tick formatMinute) s

end Legacy

/-! ## Inputs of the examples -/

/-- Monday 2 January 2006, 15:04:05.5 MST. -/
def exampleTime : Time := ⟨2006, 1, 2, 15, 4, 5, 500000000, "MST", -25200⟩

/-- Ten minutes after `exampleTime`. -/
def laterTime : Time := ⟨2006, 1, 2, 15, 14, 5, 0, "MST", -25200⟩

/-- A machine without files. -/
def noFiles : String → Option String := fun _ => none

/-- A run of `writeHeartbeat` at the time `now` in which no call fails. -/
def quietWrite (now : Time) : WriteOracle :=
  { now := now, tempDir := "/tmp", randoms := ["1234"], createErr := false, writeErr := false,
    syncErr := false, renameErr := false, removeErr := false }

/-- The zone database of a host set to the zone `MST` (`TZ=MST`): the one
abbreviation `MST`, seven hours behind UTC all year, so that the date and clock
read with `MST` are the ones shown. -/
def mountainStandard : Location :=
  { lookupName := fun name _ => if name = "MST" then some (-25200) else none
    localTime := fun t _ => { t with zone := "MST", offset := -25200 } }

/-- The zone database of a host set to `Asia/Kathmandu`, as in force since
1986: the one abbreviation `+0545`, five hours and three quarters ahead of UTC. -/
def kathmandu : Location :=
  { lookupName := fun name _ => if name = "+0545" then some 20700 else none
    localTime := fun t _ => { t with zone := "+0545", offset := 20700 } }

/-- What `time.Now()` returns on a host set to `Asia/Kathmandu` at 03:49:05 on
the third of January 2006, which is 22:04:05 UTC on the second. -/
def kathmanduTime : Time := ⟨2006, 1, 3, 3, 49, 5, 0, "+0545", 20700⟩

/-- A run of `readLastHeartbeat` on the host set to `Asia/Kathmandu` in which
no call is made to fail. -/
def kathmanduRead : ReadOracle :=
  { statErr := false, openErr := false, readErr := false, localZones := kathmandu }

/-- A machine whose heartbeat file holds what `writeHeartbeat` wrote at
`kathmanduTime`. -/
def kathmanduFiles : String → Option String :=
  fun p => if p = ".uptimed_heartbeat" then some "Tue, 03 Jan 2006 03:49:05 +0545" else none

/-- Ten minutes after `kathmanduTime`. -/
def kathmanduLaterTime : Time := ⟨2006, 1, 3, 3, 59, 5, 0, "+0545", 20700⟩

/-- A run of `readLastHeartbeat` in which no call is made to fail, on the host
set to `MST`. -/
def quietRead : ReadOracle :=
  { statErr := false, openErr := false, readErr := false,
    localZones := mountainStandard }

/-- A heartbeat file that ends with a carriage return and a line feed. -/
def crlfFiles : String → Option String :=
  fun p => if p = ".uptimed_heartbeat" then some "Mon, 02 Jan 2006 15:04:05 MST\r\n" else none

/-- A heartbeat file with a blank and line feeds around a time written by hand. -/
def paddedFiles : String → Option String :=
  fun p => if p = ".uptimed_heartbeat" then some " \nmon, 02 jan 2006 5:04:05.5 MST\n\n" else none

/-- A machine whose heartbeat file holds the time of a previous run. -/
def oldFiles : String → Option String :=
  fun p => if p = ".uptimed_heartbeat" then some "Mon, 02 Jan 2006 15:04:05 MST" else none

/-- The state in which the loop starts when the process runs in `/srv/uptimed`
without variables or arguments. -/
def runningState (files : String → Option String) : State :=
  { initialState files with workingDir := "/srv/uptimed" }

/-- A run of `writeHeartbeat` at `laterTime` in which only `f.Sync()` fails. -/
def syncFailWrite : WriteOracle := { quietWrite laterTime with syncErr := true }

/-- A process started in `/home/uptimed` with `-h /var/lib/uptimed/heartbeat`. -/
def otherDirEnv : ProcessEnv :=
  { getwd := .ok "/home/uptimed", HEARTBEAT_FILE := "", HEARTBEAT_FREQUENCY := "",
    DISCORD_WEBHOOK_URL := "", args := ["-h", "/var/lib/uptimed/heartbeat"] }

/-- The state in which the loop of the process of `otherDirEnv` starts. -/
def otherDirState : State :=
  { initialState noFiles with
    workingDir := "/home/uptimed", heartbeatFile := "/var/lib/uptimed/heartbeat" }

/-- A run of `notifyStartup` in which no call of the read fails, the host is
called `web1`, and `discord.Say` fails or not. -/
def quietNotify (sayErr : Bool) : NotifyOracle :=
  { read := quietRead, hostname := some "web1", sayErr := sayErr }

/-- A run of `notifyStartup` on the host set to `Asia/Kathmandu` in which no
call of the read fails, the host is called `web1`, and `discord.Say` fails or not. -/
def kathmanduNotify (sayErr : Bool) : NotifyOracle :=
  { read := kathmanduRead, hostname := some "web1", sayErr := sayErr }

/-- The state in which the loop starts in `/srv/uptimed` with a webhook configured. -/
def notifyingState (files : String → Option String) : State :=
  { runningState files with discordWebhookURL := "https://discord.example/api/webhooks/1" }

/-- A rendering of a count of nanoseconds, in place of the one of Go. -/
def exampleFormatMinute (n : Int) : String := toString (n / 60000000000) ++ " min"

/-- A machine whose `uptime.go` heartbeat file holds a count with a line feed after it. -/
def legacyFiles : String → Option String :=
  fun p => if p = ".uptime_heartbeat" then some "1136239445000000000\n" else none

/-- A run of the `writeHeartbeat` of `uptime.go` in which no call fails. -/
def legacyQuietWrite (now : Int) : Legacy.WriteOracle :=
  { now := now, tempDir := "/tmp", randoms := ["1234"], createErr := false, writeErr := false,
    renameErr := false, removeErr := false }

/-- A run of the `notifyStartup` of `uptime.go` in which no call of the read
fails, the host is called `web1`, and `discord.Say` fails or not. -/
def legacyQuietNotify (sayErr : Bool) : Legacy.NotifyOracle :=
  { read := quietRead, hostname := some "web1", sayErr := sayErr }

/-- The state in which the loop of `uptime.go` starts with a webhook configured. -/
def legacyNotifyingState (files : String → Option String) : Legacy.State :=
  { Legacy.initialState files with
    discordWebhookURL := "https://discord.example/api/webhooks/1" }

/-! ## Decimal digits -/

theorem digitValue_digitChar (k : Nat) (h : k < 10) : digitValue (Nat.digitChar k) = k := by
  interval_cases k <;> rfl

theorem isDigit_digitChar (k : Nat) (h : k < 10) : (Nat.digitChar k).isDigit = true := by
  interval_cases k <;> rfl

theorem digitChar_zero : Nat.digitChar 0 = '0' := rfl

theorem toDigitsCore_eq (n : Nat) : ∀ (fuel : Nat) (ds : List Char), n < fuel →
    Nat.toDigitsCore 10 fuel n ds = Nat.toDigits 10 n ++ ds := by
  induction n using Nat.strong_induction_on with
  | _ n ih =>
    intro fuel ds h
    obtain ⟨f, rfl⟩ : ∃ f, fuel = f + 1 := ⟨fuel - 1, by omega⟩
    by_cases h0 : n / 10 = 0
    · simp [Nat.toDigits, Nat.toDigitsCore, h0]
    · have h1 : n / 10 < n := by omega
      simp only [Nat.toDigits, Nat.toDigitsCore, h0, if_false]
      rw [ih (n / 10) h1 f _ (by omega), ih (n / 10) h1 n _ h1]
      simp

theorem toDigits_step (n : Nat) :
    Nat.toDigits 10 n = if n < 10 then [Nat.digitChar n]
      else Nat.toDigits 10 (n / 10) ++ [Nat.digitChar (n % 10)] := by
  by_cases h10 : n < 10
  · have h0 : n / 10 = 0 := by omega
    have hm : n % 10 = n := by omega
    simp [Nat.toDigits, Nat.toDigitsCore, h0, hm, h10]
  · have h0 : n / 10 ≠ 0 := by omega
    rw [if_neg h10]
    conv_lhs => unfold Nat.toDigits
    simp only [Nat.toDigitsCore, h0, if_false]
    exact toDigitsCore_eq (n / 10) n _ (by omega)

theorem digitsValue_append (l : List Char) (c : Char) :
    digitsValue (l ++ [c]) = digitsValue l * 10 + digitValue c := by
  simp [digitsValue, List.foldl_append]

theorem digitsValue_toDigits (n : Nat) : digitsValue (Nat.toDigits 10 n) = n := by
  induction n using Nat.strong_induction_on with
  | _ n ih =>
    rw [toDigits_step]
    split
    · simp [digitsValue, digitValue_digitChar n (by omega)]
    · rw [digitsValue_append, ih (n / 10) (by omega),
        digitValue_digitChar _ (Nat.mod_lt _ (by omega))]
      omega

theorem allDigits_toDigits (n : Nat) : (Nat.toDigits 10 n).all Char.isDigit = true := by
  induction n using Nat.strong_induction_on with
  | _ n ih =>
    rw [toDigits_step]
    split
    · simp [isDigit_digitChar n (by omega)]
    · simp only [List.all_append, ih (n / 10) (by omega), List.all_cons, List.all_nil,
        isDigit_digitChar _ (Nat.mod_lt n (by omega : 10 > 0))]
      rfl

theorem toDigits_ne_nil (n : Nat) : Nat.toDigits 10 n ≠ [] := by
  rw [toDigits_step]; split <;> simp

theorem atoiDigits_toDigits (n : Nat) : atoiDigits (Nat.toDigits 10 n) = Nat.toDigits 10 n := by
  have h := allDigits_toDigits n
  cases hh : Nat.toDigits 10 n with
  | nil => rfl
  | cons c r =>
    rw [hh] at h
    simp only [List.all_cons, Bool.and_eq_true] at h
    have h1 : c ≠ '-' := by rintro rfl; exact absurd h.1 (by decide)
    have h2 : c ≠ '+' := by rintro rfl; exact absurd h.1 (by decide)
    simp [atoiDigits, h1, h2]

theorem head_toDigits (n : Nat) : (Nat.toDigits 10 n).head? ≠ some '-' := by
  have h := allDigits_toDigits n
  cases hh : Nat.toDigits 10 n with
  | nil => simp
  | cons c r =>
    rw [hh] at h
    simp only [List.all_cons, Bool.and_eq_true] at h
    have h1 : c ≠ '-' := by rintro rfl; exact absurd h.1 (by decide)
    simpa using h1

/-! ## `strconv.Atoi` and `parseFrequency` -/

theorem atoi_toString (n : Nat) (h : n < 2 ^ 63) : atoi (toString n) = .ok (n : Int) := by
  have hd : (toString n).data = Nat.toDigits 10 n := rfl
  unfold atoi
  simp only [hd, atoiDigits_toDigits, digitsValue_toDigits, allDigits_toDigits]
  rw [if_neg (by simp [toDigits_ne_nil]), if_neg (head_toDigits n), if_neg (by omega)]

theorem atoi_toString_large (n : Nat) (h : 2 ^ 63 ≤ n) :
    atoi (toString n) = .error "value out of range" := by
  have hd : (toString n).data = Nat.toDigits 10 n := rfl
  unfold atoi
  simp only [hd, atoiDigits_toDigits, digitsValue_toDigits, allDigits_toDigits]
  rw [if_neg (by simp [toDigits_ne_nil]), if_neg (head_toDigits n), if_pos (by omega)]

theorem atoi_neg_toString (n : Nat) (h : n ≤ 2 ^ 63) :
    atoi ("-" ++ toString n) = .ok (-(n : Int)) := by
  have hd : ("-" ++ toString n).data = '-' :: Nat.toDigits 10 n := rfl
  have ha : atoiDigits ('-' :: Nat.toDigits 10 n) = Nat.toDigits 10 n := by simp [atoiDigits]
  unfold atoi
  simp only [hd, ha, digitsValue_toDigits, allDigits_toDigits]
  rw [if_neg (by simp [toDigits_ne_nil]), if_pos (by simp), if_neg (by omega)]

theorem atoi_neg_toString_large (n : Nat) (h : 2 ^ 63 < n) :
    atoi ("-" ++ toString n) = .error "value out of range" := by
  have hd : ("-" ++ toString n).data = '-' :: Nat.toDigits 10 n := rfl
  have ha : atoiDigits ('-' :: Nat.toDigits 10 n) = Nat.toDigits 10 n := by simp [atoiDigits]
  unfold atoi
  simp only [hd, ha, digitsValue_toDigits, allDigits_toDigits]
  rw [if_neg (by simp [toDigits_ne_nil]), if_pos (by simp), if_pos (by omega)]

theorem atoi_digits (ds : List Char) (hne : ds ≠ []) (hall : ds.all Char.isDigit = true)
    (h : digitsValue ds < 2 ^ 63) : atoi ⟨ds⟩ = .ok (digitsValue ds : Int) := by
  have hd : atoiDigits ds = ds ∧ ds.head? ≠ some '-' := by
    cases ds with
    | nil => exact absurd rfl hne
    | cons c r =>
      simp only [List.all_cons, Bool.and_eq_true] at hall
      have h1 : c ≠ '-' := by rintro rfl; exact absurd hall.1 (by decide)
      have h2 : c ≠ '+' := by rintro rfl; exact absurd hall.1 (by decide)
      exact ⟨by simp [atoiDigits, h1, h2], by simpa using h1⟩
  unfold atoi
  simp only [hd.1]
  rw [if_neg (by simp [hne, hall]), if_neg hd.2, if_neg (by omega)]

theorem atoi_not_number (s : String) (c : Char) (hc : c ∈ s.data)
    (h : c.isDigit = false ∧ c ≠ '-' ∧ c ≠ '+') : atoi s = .error "invalid syntax" := by
  have hmem : c ∈ atoiDigits s.data := by
    cases hs : s.data with
    | nil => rw [hs] at hc; simp at hc
    | cons a r =>
      rw [hs] at hc
      by_cases ha : a = '-' ∨ a = '+'
      · simp only [atoiDigits, ha, if_true]
        rcases List.mem_cons.mp hc with rfl | hr
        · rcases ha with ha | ha
          · exact absurd ha h.2.1
          · exact absurd ha h.2.2
        · exact hr
      · simpa [atoiDigits, ha] using hc
  unfold atoi
  rw [if_pos]
  right
  intro hall
  have := List.all_eq_true.mp hall c hmem
  rw [h.1] at this
  exact absurd this (by decide)

theorem parseFrequency_error_zero (s : String) (h : (parseFrequency s).2 ≠ none) :
    (parseFrequency s).1 = 0 := by
  unfold parseFrequency at h ⊢
  generalize atoi s = r at h ⊢
  cases r with
  | error e => rfl
  | ok v =>
    by_cases hv : v < 0 ∨ v > 65535
    · simp [hv]
    · simp [hv] at h

theorem parseFrequency_le (s : String) : (parseFrequency s).1 ≤ 65535 := by
  unfold parseFrequency
  cases atoi s with
  | error e => simp
  | ok v =>
    by_cases hv : v < 0 ∨ v > 65535
    · simp [hv]
    · simp only [hv, if_false]
      omega

/-- C6: `parseFrequency` returns `n` and no error for the decimal text of every
`n` up to 65535, also when the text has leading zeros; it returns 0 and an
error for the text of a negative integer, for the text of an integer above
65535 and for every string that holds a character which is neither a digit nor
a sign; whenever it returns an error the value is 0; and it behaves so on the
four inputs of the test. -/
theorem parseFrequency_spec :
    (∀ n : Nat, n ≤ 65535 → parseFrequency (toString n) = (n, none)) ∧
    (∀ ds : List Char, ds ≠ [] → ds.all Char.isDigit = true → digitsValue ds ≤ 65535 →
      parseFrequency ⟨ds⟩ = (digitsValue ds, none)) ∧
    (∀ n : Nat, 0 < n → (parseFrequency ("-" ++ toString n)).1 = 0 ∧
      (parseFrequency ("-" ++ toString n)).2 ≠ none) ∧
    (∀ n : Nat, 65535 < n → (parseFrequency (toString n)).1 = 0 ∧
      (parseFrequency (toString n)).2 ≠ none) ∧
    (∀ (s : String) (c : Char), c ∈ s.data → c.isDigit = false → c ≠ '-' → c ≠ '+' →
      (parseFrequency s).1 = 0 ∧ (parseFrequency s).2 ≠ none) ∧
    (∀ s : String, (parseFrequency s).2 ≠ none → (parseFrequency s).1 = 0) ∧
    parseFrequency "5" = (5, none) ∧
    parseFrequency "-1" = (0, some "value out of range for uint16") ∧
    parseFrequency "65537" = (0, some "value out of range for uint16") ∧
    parseFrequency "apples" = (0, some "invalid syntax") := by
  refine ⟨?_, ?_, ?_, ?_, ?_, parseFrequency_error_zero, by decide, by decide, by decide,
    by decide⟩
  · intro n hn
    unfold parseFrequency
    rw [atoi_toString n (by omega)]
    have h1 : ¬ ((n : Int) < 0 ∨ (n : Int) > 65535) := by omega
    simp only [h1, if_false, Int.toNat_ofNat]
    rw [Nat.mod_eq_of_lt (by omega)]
  · intro ds hne hall hv
    unfold parseFrequency
    rw [atoi_digits ds hne hall (by omega)]
    have h1 : ¬ ((digitsValue ds : Int) < 0 ∨ (digitsValue ds : Int) > 65535) := by omega
    simp only [h1, if_false, Int.toNat_ofNat]
    rw [Nat.mod_eq_of_lt (by omega)]
  · intro n hn
    unfold parseFrequency
    by_cases h : n ≤ 2 ^ 63
    · rw [atoi_neg_toString n h]
      have h1 : (-(n : Int) < 0 ∨ -(n : Int) > 65535) := by omega
      simp only [h1, if_true]
      exact ⟨trivial, by simp⟩
    · rw [atoi_neg_toString_large n (by omega)]
      simp
  · intro n hn
    unfold parseFrequency
    by_cases h : n < 2 ^ 63
    · rw [atoi_toString n h]
      have h1 : ((n : Int) < 0 ∨ (n : Int) > 65535) := by omega
      simp only [h1, if_true]
      exact ⟨trivial, by simp⟩
    · rw [atoi_toString_large n (by omega)]
      simp
  · intro s c hc h1 h2 h3
    unfold parseFrequency
    rw [atoi_not_number s c hc ⟨h1, h2, h3⟩]
    simp

/-! ## The configuration phase of `main` -/

theorem list_pairs_induction {α : Type} {P : List α → Prop} (nil : P [])
    (singleton : ∀ a, P [a]) (cons_cons : ∀ a b l, P l → P (a :: b :: l)) : ∀ l, P l
  | [] => nil
  | [a] => singleton a
  | a :: b :: l => cons_cons a b l (list_pairs_induction nil singleton cons_cons l)

theorem mainArgs_cons_cons (arg value : String) (rest : List String) (s : State) :
    mainArgs (arg :: value :: rest) s =
      if arg = "-h" ∨ arg = "--heartbeat-file" then
        mainArgs rest { s with heartbeatFile := value }
      else if arg = "-f" ∨ arg = "--heartbeat-frequency" then
        match parseFrequency value with
        | (_, some _) => none
        | (frequency, none) => mainArgs rest { s with heartbeatFrequencyMinutes := frequency }
      else if arg = "-d" ∨ arg = "--discord-webhook-url" then
        mainArgs rest { s with discordWebhookURL := value }
      else none := by
  rw [mainArgs]

theorem mainEnv_frequency_le (e : ProcessEnv) (s : State)
    (h : s.heartbeatFrequencyMinutes ≤ 65535) :
    (mainEnv e s).heartbeatFrequencyMinutes ≤ 65535 := by
  have hp := parseFrequency_le e.HEARTBEAT_FREQUENCY
  unfold mainEnv
  split_ifs <;> simp_all

theorem mainArgs_frequency_le : ∀ (args : List String) (s s1 : State),
    s.heartbeatFrequencyMinutes ≤ 65535 → mainArgs args s = some s1 →
    s1.heartbeatFrequencyMinutes ≤ 65535 := by
  intro args
  induction args using list_pairs_induction with
  | nil => intro s s1 h hs; simp [mainArgs] at hs; subst hs; exact h
  | singleton a => intro s s1 h hs; simp [mainArgs] at hs
  | cons_cons arg value rest ih =>
    intro s s1 h hs
    rw [mainArgs_cons_cons] at hs
    split_ifs at hs with h1 h2 h3
    · exact ih _ s1 (by simpa using h) hs
    · have hp := parseFrequency_le value
      rcases hq : parseFrequency value with ⟨f, _ | err⟩
      · rw [hq] at hs hp
        exact ih _ s1 (by simpa using hp) hs
      · rw [hq] at hs
        simp at hs
    · exact ih _ s1 (by simpa using h) hs

theorem mainArgs_append : ∀ (pre post : List String) (s s1 : State),
    mainArgs pre s = some s1 → mainArgs (pre ++ post) s = mainArgs post s1 := by
  intro pre
  induction pre using list_pairs_induction with
  | nil => intro post s s1 hs; simp [mainArgs] at hs; subst hs; rfl
  | singleton a => intro post s s1 hs; simp [mainArgs] at hs
  | cons_cons arg value rest ih =>
    intro post s s1 hs
    rw [List.cons_append, List.cons_append]
    rw [mainArgs_cons_cons] at hs ⊢
    split_ifs at hs ⊢ with h1 h2 h3
    · exact ih _ _ _ hs
    · rcases hq : parseFrequency value with ⟨f, _ | err⟩
      · rw [hq] at hs
        exact ih _ _ _ hs
      · rw [hq] at hs
        simp at hs
    · exact ih _ _ _ hs

theorem mainArgs_isSome : ∀ (args : List String) (s s1 t : State),
    mainArgs args s = some s1 → ∃ t1, mainArgs args t = some t1 := by
  intro args
  induction args using list_pairs_induction with
  | nil => intro s s1 t _; exact ⟨t, rfl⟩
  | singleton a => intro s s1 t hs; simp [mainArgs] at hs
  | cons_cons arg value rest ih =>
    intro s s1 t hs
    rw [mainArgs_cons_cons] at hs ⊢
    split_ifs at hs ⊢ with h1 h2 h3
    · exact ih _ _ _ hs
    · rcases hq : parseFrequency value with ⟨f, _ | err⟩
      · rw [hq] at hs
        exact ih _ _ _ hs
      · rw [hq] at hs
        simp at hs
    · exact ih _ _ _ hs

theorem mainArgs_frequency_option (opt value : String) (s : State)
    (hopt : opt = "-f" ∨ opt = "--heartbeat-frequency")
    (hbad : (parseFrequency value).2 ≠ none ∨ (parseFrequency value).1 = 0) :
    mainArgs [opt, value] s = none ∨
      ∃ s1, mainArgs [opt, value] s = some s1 ∧ s1.heartbeatFrequencyMinutes = 0 := by
  have h1 : ¬ (opt = "-h" ∨ opt = "--heartbeat-file") := by
    rcases hopt with rfl | rfl <;> decide
  rw [mainArgs_cons_cons, if_neg h1, if_pos hopt]
  rcases hq : parseFrequency value with ⟨f, _ | err⟩
  · right
    rw [hq] at hbad
    simp only [ne_eq, not_true_eq_false, false_or] at hbad
    exact ⟨_, rfl, hbad⟩
  · left; rfl

/-- C7: whatever the environment variables and the arguments are, the loop of
`main` is only reached with `heartbeatFrequencyMinutes` between 1 and 65535;
and when the arguments end with a frequency option whose value does not parse
or is 0, the process ends before the loop. -/
theorem main_frequency_validated (e : ProcessEnv) (files : String → Option String) :
    (∀ s, mainSetup e (initialState files) = some s →
      1 ≤ s.heartbeatFrequencyMinutes ∧ s.heartbeatFrequencyMinutes ≤ 65535) ∧
    (∀ (pre : List String) (opt value : String) (s0 s1 : State),
      e.args = pre ++ [opt, value] → (opt = "-f" ∨ opt = "--heartbeat-frequency") →
      mainArgs pre s0 = some s1 →
      ((parseFrequency value).2 ≠ none ∨ (parseFrequency value).1 = 0) →
      mainSetup e (initialState files) = none) := by
  constructor
  · intro s h
    unfold mainSetup at h
    cases hwd : e.getwd with
    | error err => rw [hwd] at h; simp at h
    | ok wd =>
      rw [hwd] at h
      simp only at h
      cases ha : mainArgs e.args (mainEnv e { initialState files with workingDir := wd }) with
      | none => rw [ha] at h; simp at h
      | some s1 =>
        rw [ha] at h
        simp only at h
        have hle := mainArgs_frequency_le _ _ _
          (mainEnv_frequency_le e { initialState files with workingDir := wd }
            (by simp [initialState])) ha
        split_ifs at h with h1 h2
        simp only [Option.some.injEq] at h
        subst h
        omega
  · intro pre opt value s0 s1 hargs hopt hpre hbad
    unfold mainSetup
    cases hwd : e.getwd with
    | error err => rfl
    | ok wd =>
      simp only
      obtain ⟨t1, ht1⟩ := mainArgs_isSome pre s0 s1
        (mainEnv e { initialState files with workingDir := wd }) hpre
      rw [hargs, mainArgs_append pre _ _ _ ht1]
      rcases mainArgs_frequency_option opt value t1 hopt hbad with h | ⟨s2, h, hz⟩
      · rw [h]
      · rw [h]
        simp only
        split_ifs <;> rfl

/-- C7 at a concrete input: the variable set to 0 and the arguments `-f 5`
reach the loop, with a frequency of 5 minutes. -/
theorem main_frequency_validated_witness :
    mainSetup ⟨.ok "/srv", "", "0", "", ["-f", "5"]⟩ (initialState (fun _ => none)) =
      some { initialState (fun _ => none) with
        workingDir := "/srv", heartbeatFrequencyMinutes := 5 } ∧
    (1 ≤ 5 ∧ 5 ≤ 65535) :=
  ⟨by rfl, (main_frequency_validated ⟨.ok "/srv", "", "0", "", ["-f", "5"]⟩ (fun _ => none)).1
    { initialState (fun _ => none) with workingDir := "/srv", heartbeatFrequencyMinutes := 5 }
    (by rfl)⟩

/-! ## The RFC1123 layout: formatting and parsing -/

theorem matchChar_self (c : Char) : matchChar c c = true := by
  simp [matchChar]

theorem lookup_shortDayNames (i : Nat) (h : i < 7) (rest : List Char) :
    lookup shortDayNames 0 ((shortDayNames.getD i "").data ++ rest) = some (i, rest) := by
  interval_cases i <;> rfl

theorem lookup_shortMonthNames (i : Nat) (h : i < 12) (rest : List Char) :
    lookup shortMonthNames 0 ((shortMonthNames.getD i "").data ++ rest) = some (i, rest) := by
  interval_cases i <;> rfl

theorem cutspace_of_head (value : List Char) (h : value.head? ≠ some ' ') :
    cutspace value = value := by
  cases value with
  | nil => rfl
  | cons c r =>
    have hc : c ≠ ' ' := by simpa using h
    simp [cutspace, List.dropWhile_cons, hc]

theorem cutspace_blank (value : List Char) : cutspace (' ' :: value) = cutspace value := by
  unfold cutspace
  rw [List.dropWhile_cons]
  simp

theorem skip_blank (value : List Char) (h : value.head? ≠ some ' ') :
    skip (' ' :: value) [' '] = some value := by
  have hs : skip (' ' :: value) [' '] = some (cutspace (' ' :: value)) := by
    simp [skip, skipFrom]
  rw [hs, cutspace_blank, cutspace_of_head value h]

theorem skip_comma_blank (value : List Char) (h : value.head? ≠ some ' ') :
    skip (',' :: ' ' :: value) [',', ' '] = some value := by
  have hs : skip (',' :: ' ' :: value) [',', ' '] = some (cutspace (' ' :: value)) := by
    simp [skip, skipFrom]
  rw [hs, cutspace_blank, cutspace_of_head value h]

theorem skip_colon (value : List Char) : skip (':' :: value) [':'] = some value := by
  simp [skip, skipFrom]

theorem padInt_two (n : Nat) (h : n < 100) :
    padInt n 2 = [Nat.digitChar (n / 10), Nat.digitChar (n % 10)] := by
  unfold padInt
  rw [toDigits_step]
  by_cases h10 : n < 10
  · have h0 : n / 10 = 0 := by omega
    have hm : n % 10 = n := by omega
    simp [h10, h0, hm, digitChar_zero]
  · rw [if_neg h10, toDigits_step, if_pos (by omega)]
    simp

theorem padInt_four (n : Nat) (h : n < 10000) :
    padInt n 4 = [Nat.digitChar (n / 1000), Nat.digitChar (n / 100 % 10),
      Nat.digitChar (n / 10 % 10), Nat.digitChar (n % 10)] := by
  unfold padInt
  by_cases h10 : n < 10
  · rw [toDigits_step, if_pos h10]
    have e1 : n / 1000 = 0 := by omega
    have e2 : n / 100 % 10 = 0 := by omega
    have e3 : n / 10 % 10 = 0 := by omega
    have e4 : n % 10 = n := by omega
    simp [e1, e2, e3, e4, digitChar_zero, List.replicate]
  · by_cases h100 : n < 100
    · rw [toDigits_step, if_neg h10, toDigits_step, if_pos (by omega)]
      have e1 : n / 1000 = 0 := by omega
      have e2 : n / 100 % 10 = 0 := by omega
      have e3 : n / 10 % 10 = n / 10 := by omega
      simp [e1, e2, e3, digitChar_zero, List.replicate]
    · by_cases h1000 : n < 1000
      · rw [toDigits_step, if_neg h10, toDigits_step, if_neg (by omega), toDigits_step,
          if_pos (by omega)]
        have e1 : n / 1000 = 0 := by omega
        have e2 : n / 10 / 10 = n / 100 := by omega
        have e3 : n / 100 % 10 = n / 100 := by omega
        simp [e1, e2, e3, digitChar_zero, List.replicate]
      · rw [toDigits_step, if_neg h10, toDigits_step, if_neg (by omega), toDigits_step,
          if_neg (by omega), toDigits_step, if_pos (by omega)]
        have e1 : n / 10 / 10 / 10 = n / 1000 := by omega
        have e2 : n / 10 / 10 % 10 = n / 100 % 10 := by omega
        simp [e1, e2]

theorem digitChar_ne_blank (k : Nat) (h : k < 10) : Nat.digitChar k ≠ ' ' := by
  interval_cases k <;> decide

theorem getnum_padInt (n : Nat) (h : n < 100) (isFixed : Bool) (rest : List Char) :
    getnum (padInt n 2 ++ rest) isFixed = some (n, rest) := by
  rw [padInt_two n h]
  have h1 : n / 10 < 10 := by omega
  have h2 : n % 10 < 10 := by omega
  simp [getnum, isDigit_digitChar _ h1, isDigit_digitChar _ h2,
    digitValue_digitChar _ h1, digitValue_digitChar _ h2]
  omega

theorem padInt_two_head (n : Nat) (h : n < 100) (rest : List Char) :
    (padInt n 2 ++ rest).head? ≠ some ' ' := by
  rw [padInt_two n h]
  simpa using digitChar_ne_blank (n / 10) (by omega)

theorem getyear_appendInt (y : Int) (h0 : 0 ≤ y) (h : y ≤ 9999) (rest : List Char) :
    getyear (appendInt y 4 ++ rest) = some (y.toNat, rest) := by
  have hn : y.toNat < 10000 := by omega
  unfold appendInt
  rw [if_neg (by omega), padInt_four _ hn]
  have h1 : y.toNat / 1000 < 10 := by omega
  have h2 : y.toNat / 100 % 10 < 10 := by omega
  have h3 : y.toNat / 10 % 10 < 10 := by omega
  have h4 : y.toNat % 10 < 10 := by omega
  simp [getyear, digitsValue, isDigit_digitChar _ h1, isDigit_digitChar _ h2,
    isDigit_digitChar _ h3, isDigit_digitChar _ h4,
    digitValue_digitChar _ h1, digitValue_digitChar _ h2, digitValue_digitChar _ h3,
    digitValue_digitChar _ h4]
  omega

theorem appendInt_four_head (y : Int) (h0 : 0 ≤ y) (h : y ≤ 9999) (rest : List Char) :
    (appendInt y 4 ++ rest).head? ≠ some ' ' := by
  have hn : y.toNat < 10000 := by omega
  unfold appendInt
  rw [if_neg (by omega), padInt_four _ hn]
  simpa using digitChar_ne_blank (y.toNat / 1000) (by omega)

theorem shortMonthNames_head (i : Nat) (h : i < 12) (rest : List Char) :
    ((shortMonthNames.getD i "").data ++ rest).head? ≠ some ' ' := by
  interval_cases i <;> simp [shortMonthNames]

theorem parseFraction_blank (value : List Char) :
    parseFraction (' ' :: value) = (0, ' ' :: value) := by
  cases value <;> simp [parseFraction, commaOrPeriod]

theorem parseTimeZone_head (z : List Char) (n : Nat) (h : parseTimeZone z = some n) :
    z.head? ≠ some ' ' := by
  intro hh
  cases z with
  | nil => simp at hh
  | cons c r =>
    simp only [List.head?_cons, Option.some.injEq] at hh
    subst hh
    simp [parseTimeZone, isUpper, List.take_cons, List.takeWhile_cons] at h

/-- Parsing what `Format` printed gives the time back, without its fraction
of a second, when the zone is one that `time.Parse` reads back. -/
theorem timeParse_format (loc : Location) (t : Time) (h : t.valid)
    (hz : t.zoneReadable loc) :
    timeParse loc .RFC1123 (t.Format .RFC1123) = .ok t.truncateSecond := by
  obtain ⟨hy0, hy, hm1, hm2, hd1, hd2, hh, hmi, hs, _⟩ := h
  have hw : t.Weekday < 7 := by
    unfold Time.Weekday
    simp only
    omega
  have hd : t.day < 100 := by
    have : daysIn t.month t.year ≤ 31 := by unfold daysIn; split_ifs <;> omega
    omega
  have hmm : t.month - 1 + 1 = t.month := by omega
  have hyy : ((t.year.toNat : Nat) : Int) = t.year := Int.toNat_of_nonneg hy0
  have hzone : appendZone t = t.zone.data ∧ t.zone.data.head? ≠ some ' ' ∧
      parseZone t.zone.data = some (if t.zone = "UTC" then none else some t.zone.data, []) := by
    unfold appendZone
    rcases hz with ⟨hu, _⟩ | ⟨hnu, hp, _⟩
    · rw [hu]
      exact ⟨by rw [if_neg (by decide)], by decide, by rfl⟩
    · have hne : t.zone ≠ "" := by
        intro h0
        rw [h0] at hp
        simp [parseTimeZone] at hp
      have hnu2 : t.zone ≠ "UTC" := by
        intro h0
        rw [h0] at hnu
        exact hnu rfl
      refine ⟨by rw [if_neg hne], parseTimeZone_head _ _ hp, ?_⟩
      unfold parseZone
      rw [if_neg hnu, hp, if_neg hnu2]
      simp
  obtain ⟨hz1, hz2, hz3⟩ := hzone
  have hdate : ∀ rest : List Char,
      parseDate ((shortDayNames.getD t.Weekday "").data ++ (',' :: ' ' :: (padInt t.day 2
        ++ (' ' :: ((shortMonthNames.getD (t.month - 1) "").data ++ (' ' :: (appendInt t.year 4
        ++ rest))))))) = some ((t.day, t.month, t.year.toNat), rest) := by
    intro rest
    unfold parseDate
    rw [lookup_shortDayNames _ hw]
    simp only [Option.some_bind]
    rw [skip_comma_blank _ (padInt_two_head _ hd _)]
    simp only [Option.some_bind]
    rw [getnum_padInt _ hd]
    simp only [Option.some_bind]
    rw [skip_blank _ (shortMonthNames_head _ (by omega) _)]
    simp only [Option.some_bind]
    rw [lookup_shortMonthNames _ (by omega)]
    simp only [Option.some_bind]
    rw [skip_blank _ (appendInt_four_head _ hy0 hy _)]
    simp only [Option.some_bind]
    rw [getyear_appendInt _ hy0 hy]
    simp only [Option.some_bind, hmm]
  have hclock : ∀ rest : List Char,
      parseHMS (padInt t.hour 2 ++ (':' :: (padInt t.minute 2 ++ (':' :: (padInt t.second 2
        ++ rest))))) = some ((t.hour, t.minute, t.second), rest) := by
    intro rest
    unfold parseHMS
    rw [getnum_padInt _ (by omega)]
    simp only [Option.some_bind]
    rw [skip_colon]
    simp only [Option.some_bind]
    rw [getnum_padInt _ (by omega)]
    simp only [Option.some_bind]
    rw [skip_colon]
    simp only [Option.some_bind]
    rw [getnum_padInt _ (by omega)]
    simp only [Option.some_bind]
    rw [if_pos ⟨hh, hmi, hs⟩]
  have hfmt : (t.Format .RFC1123).data =
      (shortDayNames.getD t.Weekday "").data ++ (',' :: ' ' :: (padInt t.day 2
        ++ (' ' :: ((shortMonthNames.getD (t.month - 1) "").data ++ (' ' :: (appendInt t.year 4
        ++ (' ' :: (padInt t.hour 2 ++ (':' :: (padInt t.minute 2 ++ (':' :: (padInt t.second 2
        ++ (' ' :: t.zone.data))))))))))))) := by
    simp [Time.Format, hz1]
  unfold timeParse
  simp only
  unfold parseRFC1123
  rw [hfmt, hdate]
  simp only [Option.some_bind]
  rw [skip_blank _ (padInt_two_head _ (by omega) _), Option.some_bind, hclock]
  simp only [Option.some_bind, parseFraction_blank]
  rw [skip_blank _ hz2, Option.some_bind, hz3]
  simp only [Option.some_bind]
  rw [if_pos ⟨trivial, hd1, by rw [hyy]; exact hd2⟩]
  simp only [hyy]
  rcases hz with ⟨hu, ho⟩ | ⟨hnu, hp, hl⟩
  · simp only [hu, if_true, resolveZone, Time.truncateSecond]
    cases t
    simp_all
  · have hnu2 : t.zone ≠ "UTC" := by
      intro h0
      rw [h0] at hnu
      exact hnu rfl
    have hu : (⟨t.year, t.month, t.day, t.hour, t.minute, t.second, 0, "UTC", 0⟩ : Time) =
        t.printedInUTC := rfl
    simp only [if_neg hnu2, resolveZone, hu]
    cases hq : loc.lookupName t.zone t.printedInUTC with
    | none => rw [hq] at hl; simp at hl
    | some offset =>
      rw [hq] at hl
      simp only [Option.map_some', Option.some.injEq] at hl
      simp only [hl]

theorem truncateSecond_sameMinute (t : Time) : t.truncateSecond.sameMinute t := by
  simp [Time.sameMinute, Time.truncateSecond]

/-! ## What `time.Parse` accepts neither begins nor ends with a blank or a line feed -/

theorem matchChar_not_cut (c n : Char) (h : matchChar c n = true) (hn : n ∉ "\n ".data) :
    c ∉ "\n ".data := by
  intro hc
  have hc2 : c = '\n' ∨ c = ' ' := by simpa using hc
  have hn2 : n ≠ '\n' ∧ n ≠ ' ' := by simpa using hn
  rcases hc2 with rfl | rfl
  · have : ¬ ('\n' = n) := fun e => hn2.1 e.symm
    simp [matchChar, this] at h
  · have : ¬ (' ' = n) := fun e => hn2.2 e.symm
    simp [matchChar, this] at h

theorem lookup_head (tab : List String) : ∀ (i : Nat) (val : List Char) (r : Nat × List Char),
    lookup tab i val = some r →
    (∀ v ∈ tab, ∀ c, v.data.head? = some c → c ∉ "\n ".data) → (∀ v ∈ tab, v.data ≠ []) →
    ∀ c, val.head? = some c → c ∉ "\n ".data := by
  induction tab with
  | nil => intro i val r h; simp [lookup] at h
  | cons v tab ih =>
    intro i val r h hhead hne c hc
    unfold lookup at h
    by_cases hm : matchName v.data val = true
    · cases hv : v.data with
      | nil => exact absurd hv (hne v (List.mem_cons_self _ _))
      | cons n ns =>
        cases val with
        | nil => simp at hc
        | cons x xs =>
          rw [hv] at hm
          simp only [matchName, Bool.and_eq_true] at hm
          simp only [List.head?_cons, Option.some.injEq] at hc
          subst hc
          exact matchChar_not_cut _ n hm.1 (hhead v (List.mem_cons_self _ _) n (by rw [hv]; rfl))
    · rw [if_neg hm] at h
      exact ih (i + 1) val r h (fun w hw => hhead w (List.mem_cons_of_mem _ hw))
        (fun w hw => hne w (List.mem_cons_of_mem _ hw)) c hc

theorem lookup_suffix (tab : List String) : ∀ (i : Nat) (val : List Char) (r : Nat × List Char),
    lookup tab i val = some r → r.2 <:+ val := by
  induction tab with
  | nil => intro i val r h; simp [lookup] at h
  | cons v tab ih =>
    intro i val r h
    unfold lookup at h
    split_ifs at h
    · simp only [Option.some.injEq] at h
      rw [← h]
      exact List.drop_suffix _ _
    · exact ih _ _ _ h

theorem skipFrom_suffix (lit : List Char) : ∀ (b : Bool) (value rest : List Char),
    skipFrom b lit value = some rest → rest <:+ value := by
  induction lit with
  | nil =>
    intro b value rest h
    simp only [skipFrom, Option.some.injEq] at h
    rw [h]
  | cons p ps ih =>
    intro b value rest h
    unfold skipFrom at h
    split_ifs at h
    · exact ih _ _ _ h
    · exact (ih _ _ _ h).trans (List.dropWhile_suffix _)
    · cases value with
      | nil => simp at h
      | cons v vs =>
        simp only at h
        split_ifs at h
        exact (ih _ _ _ h).trans (List.suffix_cons _ _)

theorem skip_suffix (value lit rest : List Char) (h : skip value lit = some rest) :
    rest <:+ value :=
  skipFrom_suffix lit false value rest h

theorem getnum_suffix (value : List Char) (b : Bool) (r : Nat × List Char)
    (h : getnum value b = some r) : r.2 <:+ value := by
  rcases value with _ | ⟨c0, _ | ⟨c1, rest1⟩⟩
  · simp [getnum] at h
  · simp only [getnum] at h
    split_ifs at h
    all_goals
      simp only [Option.some.injEq] at h
      rw [← h]
      exact List.nil_suffix
  · simp only [getnum] at h
    split_ifs at h
    all_goals
      simp only [Option.some.injEq] at h
      rw [← h]
      first
        | exact List.suffix_cons _ _
        | exact (List.suffix_cons _ _).trans (List.suffix_cons _ _)

theorem getyear_suffix (value : List Char) (r : Nat × List Char)
    (h : getyear value = some r) : r.2 <:+ value := by
  unfold getyear at h
  split_ifs at h
  simp only [Option.some.injEq] at h
  rw [← h]
  exact List.drop_suffix _ _

theorem parseFraction_suffix (value : List Char) : (parseFraction value).2 <:+ value := by
  unfold parseFraction
  split
  · split_ifs
    · exact (List.dropWhile_suffix _).trans (List.suffix_cons _ _)
    · exact List.suffix_refl _
  · exact List.suffix_refl _

theorem parseDate_suffix (value : List Char) (r : (Nat × Nat × Nat) × List Char)
    (h : parseDate value = some r) : r.2 <:+ value := by
  unfold parseDate at h
  simp only [Option.bind_eq_some] at h
  obtain ⟨w, hw, v1, hv1, day, hday, v2, hv2, month, hmonth, v3, hv3, year, hyear, hr⟩ := h
  simp only [Option.some.injEq] at hr
  rw [← hr]
  exact (getyear_suffix _ _ hyear).trans <| (skip_suffix _ _ _ hv3).trans <|
    (lookup_suffix _ _ _ _ hmonth).trans <| (skip_suffix _ _ _ hv2).trans <|
    (getnum_suffix _ _ _ hday).trans <| (skip_suffix _ _ _ hv1).trans (lookup_suffix _ _ _ _ hw)

theorem parseHMS_suffix (value : List Char) (r : (Nat × Nat × Nat) × List Char)
    (h : parseHMS value = some r) : r.2 <:+ value := by
  unfold parseHMS at h
  simp only [Option.bind_eq_some] at h
  obtain ⟨hour, hhour, v1, hv1, minute, hminute, v2, hv2, second, hsecond, hr⟩ := h
  split_ifs at hr
  simp only [Option.some.injEq] at hr
  rw [← hr]
  exact (getnum_suffix _ _ _ hsecond).trans <| (skip_suffix _ _ _ hv2).trans <|
    (getnum_suffix _ _ _ hminute).trans <| (skip_suffix _ _ _ hv1).trans
    (getnum_suffix _ _ _ hhour)

theorem getLast_of_suffix (l1 l2 : List Char) (h : l1 <:+ l2) (hne : l1 ≠ []) :
    l2.getLast? = l1.getLast? := by
  obtain ⟨t, rfl⟩ := h
  exact List.getLast?_append_of_ne_nil _ hne

theorem isDigit_not_cut (c : Char) (h : c.isDigit = true) : c ∉ "\n ".data := by
  intro hc
  have hc2 : c = '\n' ∨ c = ' ' := by simpa using hc
  rcases hc2 with rfl | rfl <;> exact absurd h (by decide)

theorem isUpper_not_cut (c : Char) (h : isUpper c = true) : c ∉ "\n ".data := by
  intro hc
  have hc2 : c = '\n' ∨ c = ' ' := by simpa using hc
  rcases hc2 with rfl | rfl <;> exact absurd h (by decide)

theorem all_of_dropWhile_nil (p : Char → Bool) (l : List Char) (h : l.dropWhile p = []) :
    ∀ c ∈ l, p c = true := by
  have h2 := List.takeWhile_append_dropWhile p l
  rw [h, List.append_nil] at h2
  intro c hc
  rw [← h2] at hc
  exact List.mem_takeWhile_imp hc

theorem drop_length_takeWhile (p : Char → Bool) (l : List Char) :
    l.drop (l.takeWhile p).length = l.dropWhile p := by
  induction l with
  | nil => rfl
  | cons a l ih =>
    by_cases ha : p a = true
    · simp [List.takeWhile_cons, List.dropWhile_cons, ha, ih]
    · simp [List.takeWhile_cons, List.dropWhile_cons, ha]

/-- A signed offset that `parseSignedOffset` reads to its end ends with a digit. -/
theorem parseSignedOffset_last (u : List Char) (hne : u ≠ [])
    (h : u.drop (parseSignedOffset u) = []) :
    ∀ c, u.getLast? = some c → c ∉ "\n ".data := by
  cases u with
  | nil => exact absurd rfl hne
  | cons sign rest =>
    intro c hc
    unfold parseSignedOffset at h
    simp only at h
    split_ifs at h with h1 h2
    · simp at h
    · rw [Nat.add_comm, List.drop_succ_cons] at h
      have hd : rest.dropWhile Char.isDigit = [] := by
        rw [← h, drop_length_takeWhile]
      have hall := all_of_dropWhile_nil _ _ hd
      have hrne : rest ≠ [] := by
        intro h0
        rw [h0] at h2
        simp at h2
      rw [getLast_of_suffix rest (sign :: rest) (List.suffix_cons _ _) hrne] at hc
      exact isDigit_not_cut c (hall c (List.mem_of_getLast?_eq_some hc))
    · simp at h

/-! ## `strings.Trim` -/

theorem dropWhile_append_all {α : Type} (p : α → Bool) (pre rest : List α)
    (h : ∀ c ∈ pre, p c = true) : (pre ++ rest).dropWhile p = rest.dropWhile p := by
  induction pre with
  | nil => rfl
  | cons a l ih =>
    have ha : p a = true := h a (List.mem_cons_self _ _)
    simp only [List.cons_append, List.dropWhile_cons, ha, if_true]
    exact ih (fun c hc => h c (List.mem_cons_of_mem _ hc))

theorem rdropWhile_append_all {α : Type} (p : α → Bool) (mid post : List α)
    (h : ∀ c ∈ post, p c = true) (hlast : ∀ c, mid.getLast? = some c → p c = false) :
    (mid ++ post).rdropWhile p = mid := by
  unfold List.rdropWhile
  rw [List.reverse_append, dropWhile_append_all p _ _ (by simpa using h)]
  cases hm : mid.reverse with
  | nil => simpa using hm
  | cons a l =>
    have hl : mid.getLast? = some a := by
      rw [List.getLast?_eq_head?_reverse, hm]; rfl
    have ha : p a = false := hlast a hl
    simp only [List.dropWhile_cons, ha]
    rw [← hm]; simp

/-- `strings.Trim` gives back the middle of a string that is surrounded by
characters of the cutset and neither begins nor ends with one. -/
theorem stringsTrim_surrounded (pre mid post : List Char) (cutset : String)
    (hpre : ∀ c ∈ pre, c ∈ cutset.data) (hpost : ∀ c ∈ post, c ∈ cutset.data)
    (hhead : ∀ c, mid.head? = some c → c ∉ cutset.data)
    (hlast : ∀ c, mid.getLast? = some c → c ∉ cutset.data) :
    stringsTrim ⟨pre ++ (mid ++ post)⟩ cutset = ⟨mid⟩ := by
  unfold stringsTrim
  congr 1
  simp only
  rw [dropWhile_append_all _ pre _ (by simpa using hpre)]
  cases mid with
  | nil =>
    have hall : post.dropWhile (fun c => decide (c ∈ cutset.data)) = [] := by
      simpa using dropWhile_append_all (fun c => decide (c ∈ cutset.data)) post []
        (by simpa using hpost)
    simp [hall, List.rdropWhile]
  | cons a l =>
    have ha := hhead a rfl
    have hd : (a :: l ++ post).dropWhile (fun c => decide (c ∈ cutset.data)) = a :: l ++ post := by
      simp [List.dropWhile_cons, ha]
    rw [hd]
    exact rdropWhile_append_all _ (a :: l) post (by simpa using hpost) (by simpa using hlast)

theorem all_of_takeWhile_length (p : Char → Bool) (l : List Char)
    (h : l.length ≤ (l.takeWhile p).length) : ∀ c ∈ l, p c = true := by
  have h2 := congrArg List.length (List.takeWhile_append_dropWhile p l)
  rw [List.length_append] at h2
  have h3 : (l.dropWhile p).length = 0 := by omega
  exact all_of_dropWhile_nil p l (List.length_eq_zero.mp h3)

theorem eq_take_of_drop_nil (l : List Char) (n : Nat) (h : l.drop n = []) : l = l.take n := by
  have h2 := List.take_append_drop n l
  rw [h, List.append_nil] at h2
  exact h2.symm

/-- A zone that `parseZone` reads to the end of the value ends with a capital
letter or a digit. -/
theorem parseZone_last (v : List Char) (zn : Option (List Char))
    (h : parseZone v = some (zn, [])) :
    v ≠ [] ∧ ∀ c, v.getLast? = some c → c ∉ "\n ".data := by
  unfold parseZone at h
  split_ifs at h with hutc
  · simp only [Option.some.injEq, Prod.mk.injEq] at h
    have hv := eq_take_of_drop_nil v 3 h.2
    rw [hutc] at hv
    rw [hv]
    exact ⟨by decide, by decide⟩
  · simp only [Option.map_eq_some', Prod.mk.injEq] at h
    obtain ⟨n, hp, -, hdrop⟩ := h
    have hlen3 : 3 ≤ v.length := by
      by_contra hlt
      simp [parseTimeZone, Nat.lt_of_not_le hlt] at hp
    have hne : v ≠ [] := by
      intro h0
      rw [h0] at hlen3
      simp at hlen3
    refine ⟨hne, ?_⟩
    unfold parseTimeZone at hp
    rw [if_neg (by omega)] at hp
    split_ifs at hp with h1 h2 h3 h4
    · -- ChST, MeST
      simp only [Option.some.injEq] at hp
      subst hp
      have hv := eq_take_of_drop_nil v 4 hdrop
      rcases h1 with h1 | h1 <;> rw [h1] at hv <;> rw [hv] <;> decide
    · -- GMT
      simp only [Option.some.injEq] at hp
      subst hp
      unfold parseGMT at hdrop
      split_ifs at hdrop with hg
      · have hv := eq_take_of_drop_nil v 3 hg
        rw [h2] at hv
        rw [hv]
        decide
      · rw [← List.drop_drop] at hdrop
        intro c hc
        rw [getLast_of_suffix (v.drop 3) v (List.drop_suffix _ _) hg] at hc
        exact parseSignedOffset_last (v.drop 3) hg hdrop c hc
    · -- signed hours
      simp only [Option.some.injEq] at hp
      subst hp
      exact parseSignedOffset_last v hne hdrop
    all_goals
      simp only at hp
      split_ifs at hp
    all_goals
      simp only [Option.some.injEq] at hp
      subst hp
      have hle : v.length ≤ ((v.take 6).takeWhile isUpper).length := by
        have := List.drop_eq_nil_iff.mp hdrop
        omega
      have htake : v.take 6 = v := List.take_of_length_le (by
        have := List.drop_eq_nil_iff.mp hdrop
        omega)
      rw [htake] at hle
      intro c hc
      exact isUpper_not_cut c
        (all_of_takeWhile_length isUpper v hle c (List.mem_of_getLast?_eq_some hc))

theorem shortDayNames_heads : ∀ v ∈ shortDayNames, ∀ c, v.data.head? = some c →
    c ∉ "\n ".data := by
  decide

theorem shortDayNames_ne_nil : ∀ v ∈ shortDayNames, v.data ≠ [] := by
  decide

/-- A value that `time.Parse` accepts neither begins nor ends with a line feed
or a blank, so `strings.Trim` leaves it as it is. -/
theorem stringsTrim_of_parse (loc : Location) (text : List Char) (t : Time)
    (h : timeParse loc heartbeatLayout ⟨text⟩ = .ok t) (pre post : List Char)
    (hpre : ∀ c ∈ pre, c = '\n' ∨ c = ' ') (hpost : ∀ c ∈ post, c = '\n' ∨ c = ' ') :
    stringsTrim ⟨pre ++ (text ++ post)⟩ "\n " = ⟨text⟩ := by
  have hp : ∃ t1, parseRFC1123 loc text = some t1 := by
    unfold timeParse heartbeatLayout at h
    simp only at h
    cases hq : parseRFC1123 loc text with
    | none => rw [hq] at h; simp at h
    | some t1 => exact ⟨t1, rfl⟩
  obtain ⟨t1, hp⟩ := hp
  unfold parseRFC1123 at hp
  simp only [Option.bind_eq_some] at hp
  obtain ⟨d, hd, v1, hv1, c, hc, v2, hv2, z, hz, hfin⟩ := hp
  split_ifs at hfin with hcond
  have hhead : ∀ c, text.head? = some c → c ∉ "\n ".data := by
    unfold parseDate at hd
    simp only [Option.bind_eq_some] at hd
    obtain ⟨w, hw, -⟩ := hd
    exact lookup_head _ _ _ _ hw shortDayNames_heads shortDayNames_ne_nil
  have hzl := parseZone_last v2 z.1 (by rw [hz, ← hcond.1])
  have hsuf : v2 <:+ text :=
    (skip_suffix _ _ _ hv2).trans <| (parseFraction_suffix _).trans <|
      (parseHMS_suffix _ _ hc).trans <| (skip_suffix _ _ _ hv1).trans (parseDate_suffix _ _ hd)
  have hlast : ∀ c, text.getLast? = some c → c ∉ "\n ".data := by
    intro c hc
    rw [getLast_of_suffix v2 text hsuf hzl.1] at hc
    exact hzl.2 c hc
  exact stringsTrim_surrounded pre text post "\n " (fun c hc => by simpa using hpre c hc)
    (fun c hc => by simpa using hpost c hc) hhead hlast

/-- Trimming line feeds and blanks around a formatted time that `time.Parse`
can read gives the formatted time. -/
theorem stringsTrim_format (loc : Location) (t : Time) (h : t.valid) (hz : t.zoneReadable loc)
    (pre post : List Char) (hpre : ∀ c ∈ pre, c = '\n' ∨ c = ' ')
    (hpost : ∀ c ∈ post, c = '\n' ∨ c = ' ') :
    stringsTrim ⟨pre ++ ((t.Format heartbeatLayout).data ++ post)⟩ "\n " =
      t.Format heartbeatLayout :=
  stringsTrim_of_parse loc (t.Format heartbeatLayout).data t.truncateSecond
    (timeParse_format loc t h hz) pre post hpre hpost

theorem stringsTrim_format_self (loc : Location) (t : Time) (h : t.valid)
    (hz : t.zoneReadable loc) :
    stringsTrim (t.Format heartbeatLayout) "\n " = t.Format heartbeatLayout := by
  have h := stringsTrim_format loc t h hz [] [] (by simp) (by simp)
  simpa using h

/-! ## The heartbeat store -/

theorem createTemp_fresh (s : State) (o : WriteOracle) (dir pattern f : String)
    (h : createTemp s o dir pattern = some f) : s.files f = none := by
  unfold createTemp at h
  simp only at h
  split_ifs at h
  all_goals
    simp only [Option.map_eq_some'] at h
    obtain ⟨r, hr, rfl⟩ := h
    simpa using List.find?_some hr

/-- The run of `writeHeartbeat` changes the files and extends the trace, with
calls that neither consult the store nor send a message; nothing else changes. -/
theorem writeHeartbeat_frame (s : State) (o : WriteOracle) :
    s.storeStep (writeHeartbeat s o) := by
  refine ⟨(writeHeartbeat s o).files, (writeHeartbeat s o).trace.drop s.trace.length, ?_, ?_⟩
  · unfold writeHeartbeat
    cases createTemp s o s.workingDir "uptimed" with
    | none => simp [State.emit]
    | some f => simp only; split_ifs <;> simp [State.emit]
  · unfold writeHeartbeat
    cases createTemp s o s.workingDir "uptimed" with
    | none => simp [State.emit, Event.isSay, Event.isDelivery, Event.isStoreRead]
    | some f =>
      simp only
      split_ifs <;> simp [State.emit, Event.isSay, Event.isDelivery, Event.isStoreRead]

theorem writeHeartbeat_heartbeatFile (s : State) (o : WriteOracle) :
    (writeHeartbeat s o).heartbeatFile = s.heartbeatFile := by
  obtain ⟨files, evs, h, _⟩ := writeHeartbeat_frame s o
  rw [h]

theorem writeHeartbeat_didNotifyStartup (s : State) (o : WriteOracle) :
    (writeHeartbeat s o).didNotifyStartup = s.didNotifyStartup := by
  obtain ⟨files, evs, h, _⟩ := writeHeartbeat_frame s o
  rw [h]

theorem writeHeartbeat_lastHeartbeatBeforeReboot (s : State) (o : WriteOracle) :
    (writeHeartbeat s o).lastHeartbeatBeforeReboot = s.lastHeartbeatBeforeReboot := by
  obtain ⟨files, evs, h, _⟩ := writeHeartbeat_frame s o
  rw [h]

theorem writeHeartbeat_discordWebhookURL (s : State) (o : WriteOracle) :
    (writeHeartbeat s o).discordWebhookURL = s.discordWebhookURL := by
  obtain ⟨files, evs, h, _⟩ := writeHeartbeat_frame s o
  rw [h]

theorem filter_eq_nil_of_all_false {α : Type} (p : α → Bool) (l : List α)
    (h : ∀ e ∈ l, p e = false) : l.filter p = [] := by
  rw [List.filter_eq_nil_iff]
  intro e he
  simp [h e he]

theorem writeHeartbeat_sends (s : State) (o : WriteOracle) :
    sends (writeHeartbeat s o).trace = sends s.trace := by
  obtain ⟨files, evs, h, hev⟩ := writeHeartbeat_frame s o
  rw [h]
  simp only [sends, List.filter_append]
  rw [filter_eq_nil_of_all_false _ evs (fun e he => (hev e he).1), List.append_nil]

theorem writeHeartbeat_deliveries (s : State) (o : WriteOracle) :
    deliveries (writeHeartbeat s o).trace = deliveries s.trace := by
  obtain ⟨files, evs, h, hev⟩ := writeHeartbeat_frame s o
  rw [h]
  simp only [deliveries, List.filter_append]
  rw [filter_eq_nil_of_all_false _ evs (fun e he => (hev e he).2.1), List.append_nil]

theorem writeHeartbeat_storeReads (s : State) (o : WriteOracle) :
    storeReads (writeHeartbeat s o).trace = storeReads s.trace := by
  obtain ⟨files, evs, h, hev⟩ := writeHeartbeat_frame s o
  rw [h]
  simp only [storeReads, List.filter_append]
  rw [filter_eq_nil_of_all_false _ evs (fun e he => (hev e he).2.2), List.append_nil]

/-- After a run of `writeHeartbeat` that reaches its end, the heartbeat file
holds the formatted current time. -/
theorem writeHeartbeat_files (s : State) (o : WriteOracle) (h : o.succeeds s) :
    (writeHeartbeat s o).files s.heartbeatFile = some (o.now.Format heartbeatLayout) := by
  obtain ⟨hc, hw, hr⟩ := h
  obtain ⟨f, hf⟩ := Option.isSome_iff_exists.mp hc
  unfold writeHeartbeat
  rw [hf]
  simp only [hw, hr, Bool.false_eq_true, if_false]
  split_ifs <;> simp [State.emit, renameFile, putFile]

/-- What `readLastHeartbeat` returns for a file it can stat, open and read. -/
theorem readLastHeartbeat_contents (s : State) (r : ReadOracle) (contents : String)
    (hf : s.files s.heartbeatFile = some contents) (hr : r.faultless) :
    (readLastHeartbeat s r).1 =
      match timeParse r.localZones heartbeatLayout (stringsTrim contents "\n ") with
      | .error err => (none, some err)
      | .ok heartbeat => (some heartbeat, none) := by
  obtain ⟨h1, h2, h3⟩ := hr
  simp only [readLastHeartbeat, fileExists, osStat, osOpenFile, State.emit, h1, h2, h3, hf,
    Bool.false_eq_true, if_false]
  simp only [reduceCtorEq, if_false, hf]
  cases timeParse r.localZones heartbeatLayout (stringsTrim contents "\n ") <;> rfl

theorem readLastHeartbeat_after_write (s : State) (w : WriteOracle) (r : ReadOracle)
    (ht : w.now.valid) (hz : w.now.zoneReadable r.localZones) (hw : w.succeeds s)
    (hr : r.faultless) :
    (readLastHeartbeat (writeHeartbeat s w) r).1 = (some w.now.truncateSecond, none) := by
  have hf := writeHeartbeat_files s w hw
  rw [← writeHeartbeat_heartbeatFile s w] at hf
  rw [readLastHeartbeat_contents _ r _ hf hr, stringsTrim_format_self _ _ ht hz,
    timeParse_format _ _ ht hz]

/-- C2: on a host set to `Asia/Kathmandu`, where the abbreviation of the zone
is `+0545`, a run of `writeHeartbeat` at 03:49:05 on 3 January 2006 in which no
call fails leaves "Tue, 03 Jan 2006 03:49:05 +0545" in the heartbeat file;
`time.Parse` with `heartbeatLayout` does not read these contents, trimmed,
whatever the zones of `time.Local` are; and `readLastHeartbeat` on the same
path, no call failing, returns the error and no time. For every time of the
calendar that `time.Parse` reads back from its text (`zoneReadable`) the
property holds: after a run of `writeHeartbeat` at `t` that reaches its end,
`readLastHeartbeat` returns no error and `t` without its fraction of a second,
which agrees with `t` to the minute; the file holds the formatted `t`, whose
trimmed contents parse to that time; and after a second write only the second
time is read. -/
theorem writeHeartbeat_readLastHeartbeat :
    ((quietWrite kathmanduTime).succeeds (runningState noFiles) ∧
     kathmanduRead.faultless ∧ kathmanduTime.valid ∧
     (writeHeartbeat (runningState noFiles) (quietWrite kathmanduTime)).files
       ".uptimed_heartbeat" = some "Tue, 03 Jan 2006 03:49:05 +0545" ∧
     (∀ loc : Location, timeParse loc heartbeatLayout
       (stringsTrim "Tue, 03 Jan 2006 03:49:05 +0545" "\n ") =
         .error "parsing time: cannot parse value") ∧
     (readLastHeartbeat (writeHeartbeat (runningState noFiles) (quietWrite kathmanduTime))
       kathmanduRead).1 = (none, some "parsing time: cannot parse value")) ∧
    (∀ (s : State) (w1 w2 : WriteOracle) (r : ReadOracle),
      w1.now.valid → w1.now.zoneReadable r.localZones →
      w2.now.valid → w2.now.zoneReadable r.localZones →
      w1.succeeds s → w2.succeeds (writeHeartbeat s w1) → r.faultless →
      (readLastHeartbeat (writeHeartbeat s w1) r).1 = (some w1.now.truncateSecond, none) ∧
      w1.now.truncateSecond.sameMinute w1.now ∧
      (writeHeartbeat s w1).files s.heartbeatFile = some (w1.now.Format heartbeatLayout) ∧
      timeParse r.localZones heartbeatLayout
        (stringsTrim (w1.now.Format heartbeatLayout) "\n ") = .ok w1.now.truncateSecond ∧
      (readLastHeartbeat (writeHeartbeat (writeHeartbeat s w1) w2) r).1 =
        (some w2.now.truncateSecond, none) ∧
      (writeHeartbeat (writeHeartbeat s w1) w2).files s.heartbeatFile =
        some (w2.now.Format heartbeatLayout)) ∧
    (readLastHeartbeat (writeHeartbeat (writeHeartbeat (runningState noFiles)
      (quietWrite exampleTime)) (quietWrite laterTime)) quietRead).1 =
      (some laterTime, none) := by
  have hgen : ∀ (s : State) (w1 w2 : WriteOracle) (r : ReadOracle),
      w1.now.valid → w1.now.zoneReadable r.localZones →
      w2.now.valid → w2.now.zoneReadable r.localZones →
      w1.succeeds s → w2.succeeds (writeHeartbeat s w1) → r.faultless →
      (readLastHeartbeat (writeHeartbeat s w1) r).1 = (some w1.now.truncateSecond, none) ∧
      w1.now.truncateSecond.sameMinute w1.now ∧
      (writeHeartbeat s w1).files s.heartbeatFile = some (w1.now.Format heartbeatLayout) ∧
      timeParse r.localZones heartbeatLayout
        (stringsTrim (w1.now.Format heartbeatLayout) "\n ") = .ok w1.now.truncateSecond ∧
      (readLastHeartbeat (writeHeartbeat (writeHeartbeat s w1) w2) r).1 =
        (some w2.now.truncateSecond, none) ∧
      (writeHeartbeat (writeHeartbeat s w1) w2).files s.heartbeatFile =
        some (w2.now.Format heartbeatLayout) := by
    intro s w1 w2 r ht1 hz1 ht2 hz2 hw1 hw2 hr
    refine ⟨readLastHeartbeat_after_write s w1 r ht1 hz1 hw1 hr, truncateSecond_sameMinute _,
      writeHeartbeat_files s w1 hw1, ?_, readLastHeartbeat_after_write _ w2 r ht2 hz2 hw2 hr, ?_⟩
    · rw [stringsTrim_format_self _ _ ht1 hz1]
      exact timeParse_format _ _ ht1 hz1
    · have h := writeHeartbeat_files (writeHeartbeat s w1) w2 hw2
      rwa [writeHeartbeat_heartbeatFile] at h
  have hfile : (writeHeartbeat (runningState noFiles) (quietWrite kathmanduTime)).files
      (writeHeartbeat (runningState noFiles) (quietWrite kathmanduTime)).heartbeatFile =
        some "Tue, 03 Jan 2006 03:49:05 +0545" := by
    rw [writeHeartbeat_heartbeatFile, writeHeartbeat_files _ _ (by decide)]
    decide
  have hparse : ∀ loc : Location, timeParse loc heartbeatLayout
      (stringsTrim "Tue, 03 Jan 2006 03:49:05 +0545" "\n ") =
        .error "parsing time: cannot parse value" := fun _ => rfl
  refine ⟨⟨by decide, by decide, by decide, ?_, hparse, ?_⟩, hgen, ?_⟩
  · rw [← hfile, writeHeartbeat_heartbeatFile]
    rfl
  · rw [readLastHeartbeat_contents _ kathmanduRead _ hfile (by decide), hparse]
  · exact (hgen (runningState noFiles) (quietWrite exampleTime) (quietWrite laterTime) quietRead
      (by decide) (by decide) (by decide) (by decide) (by decide) (by decide) (by decide)).2.2.2.2.1

theorem fileExists_files (s : State) (r : ReadOracle) (p : String) :
    (fileExists s r p).2.files = s.files := by
  unfold fileExists
  cases osStat s r p <;> rfl

theorem readLastHeartbeat_error (s : State) (r : ReadOracle) (err : Error)
    (h : (readLastHeartbeat s r).1.2 = some err) :
    (fileExists s r s.heartbeatFile).1 = true ∧
    (osOpenFile s r s.heartbeatFile = .error err ∨
     (∃ c, osOpenFile s r s.heartbeatFile = .ok c ∧ r.readErr = true) ∨
     (∃ c, osOpenFile s r s.heartbeatFile = .ok c ∧ r.readErr = false ∧
       timeParse r.localZones heartbeatLayout (stringsTrim c "\n ") = .error err)) := by
  unfold readLastHeartbeat at h
  have hopen : osOpenFile (fileExists s r s.heartbeatFile).2 r s.heartbeatFile =
      osOpenFile s r s.heartbeatFile := by
    unfold osOpenFile
    rw [fileExists_files]
  simp only [hopen] at h
  by_cases he : (fileExists s r s.heartbeatFile).1 = false
  · simp [he] at h
  · simp only [he, if_false] at h
    refine ⟨by simpa using he, ?_⟩
    cases ho : osOpenFile s r s.heartbeatFile with
    | error e =>
      rw [ho] at h
      simp at h
      left; rw [h]
    | ok c =>
      rw [ho] at h
      right
      by_cases hre : r.readErr = true
      · left; exact ⟨c, rfl, hre⟩
      · right
        simp only [hre, if_false] at h
        refine ⟨c, rfl, by simpa using hre, ?_⟩
        cases hp : timeParse r.localZones heartbeatLayout (stringsTrim c "\n ") with
        | error e =>
          rw [hp] at h
          simp at h
          rw [h]
        | ok t =>
          rw [hp] at h
          simp at h


theorem removeFile_putFile_fresh (files : String → Option String) (f data : String)
    (h : files f = none) : removeFile (putFile files f data) f = files := by
  funext p
  unfold removeFile putFile
  by_cases hp : p = f
  · simp [hp, h]
  · simp [hp]

/-- C1, on the code: when the temporary file cannot be created, and when it
cannot be written (and is then removed), `writeHeartbeat` reports the error,
renames nothing and leaves every file as it was; but when only `f.Sync()`
fails, `writeHeartbeat` reports the error and goes on: it renames the temporary
file over the heartbeat file, whose previous contents are lost. -/
theorem writeHeartbeat_sync_failure :
    (∀ (s : State) (o : WriteOracle), createTemp s o s.workingDir "uptimed" = none →
      (writeHeartbeat s o).files = s.files ∧
      renames (writeHeartbeat s o).trace = renames s.trace) ∧
    (∀ (s : State) (o : WriteOracle) (f : String),
      createTemp s o s.workingDir "uptimed" = some f → o.writeErr = true →
      o.removeErr = false →
      (writeHeartbeat s o).files = s.files ∧
      renames (writeHeartbeat s o).trace = renames s.trace) ∧
    (runningState oldFiles).files ".uptimed_heartbeat" = some "Mon, 02 Jan 2006 15:04:05 MST" ∧
    (writeHeartbeat (runningState oldFiles) syncFailWrite).trace =
      [Event.createTemp "/srv/uptimed" "uptimed" (some "/srv/uptimed/uptimed1234"),
       Event.write "/srv/uptimed/uptimed1234" "Mon, 02 Jan 2006 15:14:05 MST" true,
       Event.sync "/srv/uptimed/uptimed1234" false,
       Event.stderr "Error syncing heartbeat file: sync failed\n",
       Event.close "/srv/uptimed/uptimed1234",
       Event.rename "/srv/uptimed/uptimed1234" ".uptimed_heartbeat" true] ∧
    (writeHeartbeat (runningState oldFiles) syncFailWrite).files ".uptimed_heartbeat" =
      some "Mon, 02 Jan 2006 15:14:05 MST" ∧
    (writeHeartbeat (runningState oldFiles) syncFailWrite).files "/srv/uptimed/uptimed1234" =
      none := by
  refine ⟨?_, ?_, by rfl, by rfl, by rfl, by rfl⟩
  · intro s o hc
    unfold writeHeartbeat
    rw [hc]
    simp [State.emit, renames, Event.isRename]
  · intro s o f hc hw hr
    have hfresh := createTemp_fresh s o _ _ f hc
    unfold writeHeartbeat
    rw [hc]
    simp only [hw, hr, if_true, Bool.false_eq_true, if_false]
    constructor
    · simp only [State.emit]
      exact removeFile_putFile_fresh _ _ _ hfresh
    · simp [State.emit, renames, Event.isRename]

/-! ## The directory of the temporary file -/

theorem createTemp_name (s : State) (o : WriteOracle) (dir pattern f : String)
    (h : createTemp s o dir pattern = some f) :
    ∃ r ∈ o.randoms, f = joinPath (if dir = "" then o.tempDir else dir) pattern ++ r := by
  unfold createTemp at h
  simp only at h
  split_ifs at h
  all_goals
    simp only [Option.map_eq_some'] at h
    obtain ⟨r, hr, rfl⟩ := h
    exact ⟨r, List.mem_of_mem_take (List.mem_of_find?_eq_some hr), by simp [*]⟩

theorem pathDir_joinPath (wd name : String) (hne : wd.data ≠ [])
    (hclean : wd.data = ['/'] ∨ wd.data.getLast? ≠ some '/') (hname : '/' ∉ name.data) :
    pathDir (joinPath wd name) = wd := by
  have hall : ∀ c ∈ name.data, (fun c => decide (c ≠ '/')) c = true := by
    intro c hc
    have : c ≠ '/' := fun h => hname (h ▸ hc)
    simpa using this
  by_cases hlast : wd.data.getLast? = some '/'
  · have hroot : wd.data = ['/'] := by
      rcases hclean with h | h
      · exact h
      · exact absurd hlast h
    have hd : (joinPath wd name).data = ['/'] ++ name.data := by
      simp [joinPath, hlast, hroot]
    unfold pathDir
    rw [hd, if_pos (by simp)]
    simp only
    rw [rdropWhile_append_all _ ['/'] name.data hall (by simp)]
    simp only [List.dropLast_single, if_true]
    exact String.ext (by simp [hroot])
  · have hd : (joinPath wd name).data = (wd.data ++ ['/']) ++ name.data := by
      simp [joinPath, hlast]
    unfold pathDir
    rw [hd, if_pos (by simp)]
    simp only
    rw [rdropWhile_append_all _ (wd.data ++ ['/']) name.data hall (by simp)]
    simp only [List.dropLast_concat, hne, if_false]

theorem mainEnv_workingDir (e : ProcessEnv) (s : State) :
    (mainEnv e s).workingDir = s.workingDir := by
  unfold mainEnv
  split_ifs <;> rfl

theorem mainArgs_workingDir : ∀ (args : List String) (s s1 : State),
    mainArgs args s = some s1 → s1.workingDir = s.workingDir := by
  intro args
  induction args using list_pairs_induction with
  | nil => intro s s1 hs; simp [mainArgs] at hs; subst hs; rfl
  | singleton a => intro s s1 hs; simp [mainArgs] at hs
  | cons_cons arg value rest ih =>
    intro s s1 hs
    rw [mainArgs_cons_cons] at hs
    split_ifs at hs with h1 h2 h3
    · exact (ih _ s1 hs).trans rfl
    · rcases hq : parseFrequency value with ⟨f, _ | err⟩
      · rw [hq] at hs
        exact (ih _ s1 hs).trans rfl
      · rw [hq] at hs
        simp at hs
    · exact (ih _ s1 hs).trans rfl

/-- C3, as amended: the directory given to `os.CreateTemp` is `workingDir`,
which `main` sets to the working directory of the process, whatever
`heartbeatFile` is; the temporary file is made in it (in `os.TempDir()` when
`workingDir` is empty), and it is this file that is renamed over
`heartbeatFile`. The two lie in one directory when `heartbeatFile` is a bare
file name, which is taken relative to the working directory. -/
theorem writeHeartbeat_temp_directory (s : State) (o : WriteOracle) (f : String)
    (hc : createTemp s o s.workingDir "uptimed" = some f) :
    (∃ r ∈ o.randoms,
      f = joinPath (if s.workingDir = "" then o.tempDir else s.workingDir) "uptimed" ++ r) ∧
    ((writeHeartbeat s o).trace.drop s.trace.length).head? =
      some (Event.createTemp s.workingDir "uptimed" (some f)) ∧
    (∀ e ∈ (writeHeartbeat s o).trace.drop s.trace.length, e.isRename = true →
      e = Event.rename f s.heartbeatFile (!o.renameErr)) ∧
    (s.workingDir.data ≠ [] →
      (s.workingDir.data = ['/'] ∨ s.workingDir.data.getLast? ≠ some '/') →
      (∀ r ∈ o.randoms, '/' ∉ r.data) → '/' ∉ s.heartbeatFile.data →
      pathDir f = s.workingDir ∧
      pathDir (absPath s.workingDir s.heartbeatFile) = s.workingDir) ∧
    (∀ (e : ProcessEnv) (files : String → Option String) (s1 : State),
      mainSetup e (initialState files) = some s1 → e.getwd = .ok s1.workingDir) := by
  refine ⟨createTemp_name s o _ _ f hc, ?_, ?_, ?_, ?_⟩
  · unfold writeHeartbeat
    rw [hc]
    simp only
    split_ifs <;> simp [State.emit]
  · unfold writeHeartbeat
    rw [hc]
    simp only
    split_ifs <;> simp_all [State.emit, Event.isRename]
  · intro hne hclean hr hhb
    obtain ⟨r, hrm, hf⟩ := createTemp_name s o _ _ f hc
    have hwd : s.workingDir ≠ "" := fun h => hne (by rw [h])
    rw [if_neg hwd] at hf
    have hjoin : f = joinPath s.workingDir ("uptimed" ++ r) := by
      rw [hf]
      unfold joinPath
      split_ifs
      · simp [String.append_assoc]
      · exact String.ext (by simp [String.append_assoc])
    constructor
    · rw [hjoin]
      refine pathDir_joinPath _ _ hne hclean ?_
      have := hr r hrm
      simp only [String.data_append, List.mem_append, not_or]
      exact ⟨by decide, this⟩
    · have hhead : s.heartbeatFile.data.head? ≠ some '/' := by
        intro h
        exact hhb (List.mem_of_mem_head? h)
      unfold absPath
      rw [if_neg hhead]
      exact pathDir_joinPath _ _ hne hclean hhb
  · intro e files s1 h
    unfold mainSetup at h
    cases hwd : e.getwd with
    | error err => rw [hwd] at h; simp at h
    | ok wd =>
      rw [hwd] at h
      simp only at h
      cases ha : mainArgs e.args (mainEnv e { initialState files with workingDir := wd }) with
      | none => rw [ha] at h; simp at h
      | some s2 =>
        rw [ha] at h
        simp only at h
        split_ifs at h
        simp only [Option.some.injEq] at h
        subst h
        rw [mainArgs_workingDir _ _ _ ha, mainEnv_workingDir]

/-- C3, as amended, at a concrete input: the process of `runningState`, whose
heartbeat file is the bare name `.uptimed_heartbeat`. -/
theorem writeHeartbeat_temp_directory_witness :
    pathDir "/srv/uptimed/uptimed1234" = "/srv/uptimed" ∧
    pathDir (absPath "/srv/uptimed" ".uptimed_heartbeat") = "/srv/uptimed" :=
  (writeHeartbeat_temp_directory (runningState noFiles) (quietWrite exampleTime)
    "/srv/uptimed/uptimed1234" (by rfl)).2.2.2.1 (by decide) (by decide) (by decide) (by decide)

/-- C3 fails as stated: the process started in `/home/uptimed` with
`-h /var/lib/uptimed/heartbeat` gives `/home/uptimed` to `os.CreateTemp`, which
is not the directory of the heartbeat file, and renames across directories. -/
theorem writeHeartbeat_other_directory :
    (mainSetup otherDirEnv (initialState noFiles)).map
      (fun s => (s.workingDir, s.heartbeatFile)) =
      some ("/home/uptimed", "/var/lib/uptimed/heartbeat") ∧
    (writeHeartbeat otherDirState (quietWrite exampleTime)).trace =
      [Event.createTemp "/home/uptimed" "uptimed" (some "/home/uptimed/uptimed1234"),
       Event.write "/home/uptimed/uptimed1234" "Mon, 02 Jan 2006 15:04:05 MST" true,
       Event.sync "/home/uptimed/uptimed1234" true,
       Event.close "/home/uptimed/uptimed1234",
       Event.rename "/home/uptimed/uptimed1234" "/var/lib/uptimed/heartbeat" true] ∧
    pathDir (absPath "/home/uptimed" "/var/lib/uptimed/heartbeat") = "/var/lib/uptimed" ∧
    pathDir "/home/uptimed/uptimed1234" = "/home/uptimed" ∧
    "/home/uptimed" ≠ pathDir (absPath "/home/uptimed" "/var/lib/uptimed/heartbeat") := by
  refine ⟨by rfl, by rfl, by decide, by decide, by decide⟩

/-! ## The boot notifier -/

/-- The run of `readLastHeartbeat` extends the trace with calls that send no
message and may set `lastHeartbeatBeforeReboot`; nothing else changes. -/
theorem readLastHeartbeat_frame (s : State) (r : ReadOracle) :
    ∃ last evs, (readLastHeartbeat s r).2 =
        { s with lastHeartbeatBeforeReboot := last, trace := s.trace ++ evs } ∧
      (∀ e ∈ evs, e.isSay = false ∧ e.isDelivery = false) ∧
      ((readLastHeartbeat s r).1.1 = none → last = s.lastHeartbeatBeforeReboot) ∧
      (∀ t, (readLastHeartbeat s r).1.1 = some t → last = t) := by
  refine ⟨(readLastHeartbeat s r).2.lastHeartbeatBeforeReboot,
    (readLastHeartbeat s r).2.trace.drop s.trace.length, ?_, ?_, ?_, ?_⟩
  all_goals
    unfold readLastHeartbeat fileExists
    cases osStat s r s.heartbeatFile <;> simp only [if_true, Bool.true_eq_false, if_false]
    all_goals
      first
        | simp [State.emit, Event.isSay, Event.isDelivery]; done
        | (cases osOpenFile _ r s.heartbeatFile <;> simp only
           all_goals
             first
               | simp [State.emit, Event.isSay, Event.isDelivery]; done
               | (split_ifs
                  all_goals
                    first
                      | simp [State.emit, Event.isSay, Event.isDelivery]; done
                      | (cases timeParse _ heartbeatLayout (stringsTrim _ "\n ") <;>
                          simp [State.emit, Event.isSay, Event.isDelivery])))

theorem readLastHeartbeat_result (s : State) (r : ReadOracle) :
    (readLastHeartbeat s r).1.1 = none ∨ (readLastHeartbeat s r).1.2 = none := by
  unfold readLastHeartbeat
  simp only
  repeat' split
  all_goals simp

theorem readLastHeartbeat_error_none (s : State) (r : ReadOracle) (err : Error)
    (h : (readLastHeartbeat s r).1.2 = some err) : (readLastHeartbeat s r).1.1 = none := by
  rcases readLastHeartbeat_result s r with h1 | h1
  · exact h1
  · rw [h1] at h; simp at h

theorem readLastHeartbeat_absent (s : State) (r : ReadOracle)
    (hfile : s.files s.heartbeatFile = none) (hstat : r.statErr = false) :
    readLastHeartbeat s r = ((none, none), s.emit (.stat s.heartbeatFile)) := by
  simp [readLastHeartbeat, fileExists, osStat, hfile, hstat]

theorem notifyStartup_delivered (s : State) (o : NotifyOracle) (h : s.didNotifyStartup = 2) :
    notifyStartup s o = s := by
  unfold notifyStartup
  split_ifs <;> rfl

theorem notifyStartup_no_destination (s : State) (o : NotifyOracle)
    (h : s.discordWebhookURL = "") : notifyStartup s o = s := by
  unfold notifyStartup
  rw [if_pos h]

theorem notifyStartup_failed (s : State) (o : NotifyOracle) (hurl : s.discordWebhookURL ≠ "")
    (h : s.didNotifyStartup = 1) :
    notifyStartup s o = notifyStartupSay s o s.lastHeartbeatBeforeReboot := by
  unfold notifyStartup
  rw [if_neg hurl, if_neg (by omega), if_pos h]

theorem notifyStartup_read (s : State) (o : NotifyOracle) (hurl : s.discordWebhookURL ≠ "")
    (h1 : s.didNotifyStartup ≠ 2) (h2 : s.didNotifyStartup ≠ 1) :
    notifyStartup s o =
      match readLastHeartbeat s o.read with
      | ((_, some err), s1) => s1.emit (.stderr ("Error getting last heartbeat: " ++ err ++ "\n"))
      | ((none, none), s1) => { s1 with didNotifyStartup := 2 }
      | ((some last, none), s1) => notifyStartupSay s1 o last := by
  unfold notifyStartup
  rw [if_neg hurl, if_neg h1, if_neg h2]

theorem notifyStartupSay_deliveries (s : State) (o : NotifyOracle) (t : Time) :
    deliveries (notifyStartupSay s o t).trace ≤ deliveries s.trace + 1 ∧
    ((notifyStartupSay s o t).didNotifyStartup ≠ 2 →
      deliveries (notifyStartupSay s o t).trace = deliveries s.trace) := by
  unfold notifyStartupSay
  split_ifs <;> simp [State.emit, deliveries, Event.isDelivery, List.filter_append]

/-- One run of `notifyStartup` delivers at most one message, and none unless it
ends in the state 2. -/
theorem notifyStartup_deliveries (s : State) (o : NotifyOracle) :
    deliveries (notifyStartup s o).trace ≤ deliveries s.trace + 1 ∧
    ((notifyStartup s o).didNotifyStartup ≠ 2 →
      deliveries (notifyStartup s o).trace = deliveries s.trace) := by
  by_cases hurl : s.discordWebhookURL = ""
  · rw [notifyStartup_no_destination s o hurl]; simp
  by_cases h2 : s.didNotifyStartup = 2
  · rw [notifyStartup_delivered s o h2]; simp
  by_cases h1 : s.didNotifyStartup = 1
  · rw [notifyStartup_failed s o hurl h1]
    exact notifyStartupSay_deliveries s o _
  rw [notifyStartup_read s o hurl h2 h1]
  obtain ⟨last, evs, hs1, hev, _, _⟩ := readLastHeartbeat_frame s o.read
  have hd : deliveries (readLastHeartbeat s o.read).2.trace = deliveries s.trace := by
    rw [hs1]
    simp only [deliveries, List.filter_append]
    rw [filter_eq_nil_of_all_false _ evs (fun e he => (hev e he).2), List.append_nil]
  rcases hq : readLastHeartbeat s o.read with ⟨⟨res, err⟩, s1⟩
  rw [hq] at hd
  simp only at hd
  cases err with
  | some e =>
    simp only
    simp [State.emit, deliveries, Event.isDelivery, List.filter_append] at hd ⊢
    omega
  | none =>
    cases res with
    | none =>
      simp only
      omega
    | some t =>
      simp only
      have := notifyStartupSay_deliveries s1 o t
      rw [hd] at this
      exact this

theorem mainLoop_append (s : State) (pre post : List TickOracle) :
    mainLoop s (pre ++ post) = mainLoop (mainLoop s pre) post := by
  unfold mainLoop
  rw [List.foldl_append]

theorem mainLoop_cons (s : State) (o : TickOracle) (os : List TickOracle) :
    mainLoop s (o :: os) = mainLoop (tick s o) os := rfl

theorem tick_delivered (s : State) (o : TickOracle) (h : s.didNotifyStartup = 2) :
    (tick s o).didNotifyStartup = 2 ∧ sends (tick s o).trace = sends s.trace ∧
    storeReads (tick s o).trace = storeReads s.trace := by
  unfold tick
  rw [notifyStartup_delivered s o.notify h]
  exact ⟨by rw [writeHeartbeat_didNotifyStartup, h], writeHeartbeat_sends s o.write,
    writeHeartbeat_storeReads s o.write⟩

theorem mainLoop_delivered (os : List TickOracle) : ∀ (s : State), s.didNotifyStartup = 2 →
    (mainLoop s os).didNotifyStartup = 2 ∧ sends (mainLoop s os).trace = sends s.trace ∧
    storeReads (mainLoop s os).trace = storeReads s.trace := by
  induction os with
  | nil => intro s h; exact ⟨h, rfl, rfl⟩
  | cons o os ih =>
    intro s h
    obtain ⟨h1, h2, h3⟩ := tick_delivered s o h
    obtain ⟨k1, k2, k3⟩ := ih (tick s o) h1
    rw [mainLoop_cons]
    exact ⟨k1, k2.trans h2, k3.trans h3⟩

theorem mainLoop_deliveries (d : Nat) (os : List TickOracle) : ∀ (s : State),
    deliveries s.trace ≤ d + 1 → (s.didNotifyStartup ≠ 2 → deliveries s.trace = d) →
    deliveries (mainLoop s os).trace ≤ d + 1 := by
  induction os with
  | nil => intro s h _; exact h
  | cons o os ih =>
    intro s hle hne
    rw [mainLoop_cons]
    have hn := notifyStartup_deliveries s o.notify
    apply ih
    · unfold tick
      rw [writeHeartbeat_deliveries]
      by_cases h2 : s.didNotifyStartup = 2
      · rw [notifyStartup_delivered s o.notify h2]; exact hle
      · have := hne h2
        omega
    · unfold tick
      rw [writeHeartbeat_deliveries, writeHeartbeat_didNotifyStartup]
      intro h2
      have h2s : s.didNotifyStartup ≠ 2 := by
        intro h
        rw [notifyStartup_delivered s o.notify h] at h2
        exact h2 h
      rw [hn.2 h2, hne h2s]

theorem tick_no_destination (s : State) (o : TickOracle) (h : s.discordWebhookURL = "") :
    (tick s o).discordWebhookURL = "" ∧ sends (tick s o).trace = sends s.trace ∧
    storeReads (tick s o).trace = storeReads s.trace ∧
    (tick s o).didNotifyStartup = s.didNotifyStartup ∧
    (tick s o).lastHeartbeatBeforeReboot = s.lastHeartbeatBeforeReboot := by
  unfold tick
  rw [notifyStartup_no_destination s o.notify h]
  exact ⟨by rw [writeHeartbeat_discordWebhookURL, h], writeHeartbeat_sends s o.write,
    writeHeartbeat_storeReads s o.write, writeHeartbeat_didNotifyStartup s o.write,
    writeHeartbeat_lastHeartbeatBeforeReboot s o.write⟩

theorem mainLoop_no_destination (os : List TickOracle) : ∀ (s : State),
    s.discordWebhookURL = "" →
    sends (mainLoop s os).trace = sends s.trace ∧
    storeReads (mainLoop s os).trace = storeReads s.trace ∧
    (mainLoop s os).didNotifyStartup = s.didNotifyStartup ∧
    (mainLoop s os).lastHeartbeatBeforeReboot = s.lastHeartbeatBeforeReboot := by
  induction os with
  | nil => intro s _; exact ⟨rfl, rfl, rfl, rfl⟩
  | cons o os ih =>
    intro s h
    obtain ⟨h1, h2, h3, h4, h5⟩ := tick_no_destination s o h
    obtain ⟨k2, k3, k4, k5⟩ := ih (tick s o) h1
    rw [mainLoop_cons]
    exact ⟨k2.trans h2, k3.trans h3, k4.trans h4, k5.trans h5⟩

/-- C10: with a destination configured, in the state 0 and with no heartbeat
file, `readLastHeartbeat` returns no record and no error, and `notifyStartup`
goes to the state 2 with one `os.Stat` as its only call, so without a message;
and whenever `readLastHeartbeat` returns an error in the state 0,
`notifyStartup` sends nothing and stays in the state 0. -/
theorem notifyStartup_first_run (s : State) (o : NotifyOracle)
    (hurl : s.discordWebhookURL ≠ "") (h0 : s.didNotifyStartup = 0)
    (hfile : s.files s.heartbeatFile = none) (hstat : o.read.statErr = false) :
    (readLastHeartbeat s o.read).1 = (none, none) ∧
    (notifyStartup s o).didNotifyStartup = 2 ∧
    (notifyStartup s o).trace = s.trace ++ [Event.stat s.heartbeatFile] ∧
    sends (notifyStartup s o).trace = sends s.trace ∧
    (∀ (s1 : State) (o1 : NotifyOracle) (err : Error), s1.discordWebhookURL ≠ "" →
      s1.didNotifyStartup = 0 → (readLastHeartbeat s1 o1.read).1.2 = some err →
      (notifyStartup s1 o1).didNotifyStartup = 0 ∧
      sends (notifyStartup s1 o1).trace = sends s1.trace ∧
      (notifyStartup s1 o1).lastHeartbeatBeforeReboot = s1.lastHeartbeatBeforeReboot) := by
  have hread := readLastHeartbeat_absent s o.read hfile hstat
  have hn : notifyStartup s o = { s.emit (.stat s.heartbeatFile) with didNotifyStartup := 2 } := by
    rw [notifyStartup_read s o hurl (by omega) (by omega), hread]
  refine ⟨by rw [hread], by rw [hn], by rw [hn]; rfl, ?_, ?_⟩
  · rw [hn]
    simp [State.emit, sends, Event.isSay, List.filter_append]
  · intro s1 o1 err hurl1 h01 herr
    obtain ⟨last, evs, hs1, hev, hlast, _⟩ := readLastHeartbeat_frame s1 o1.read
    have hnone := readLastHeartbeat_error_none s1 o1.read err herr
    rw [notifyStartup_read s1 o1 hurl1 (by omega) (by omega)]
    rcases hq : readLastHeartbeat s1 o1.read with ⟨⟨res, e⟩, s2⟩
    rw [hq] at herr hs1
    simp only at herr hs1
    subst herr
    simp only
    rw [hs1, hlast hnone]
    refine ⟨h01, ?_, rfl⟩
    simp only [State.emit, sends, List.filter_append]
    rw [filter_eq_nil_of_all_false _ evs (fun e he => (hev e he).1)]
    simp [Event.isSay]

/-- C10 at a concrete input: the first run on a machine without files. -/
theorem notifyStartup_first_run_witness :
    (notifyStartup (notifyingState noFiles) (quietNotify false)).didNotifyStartup = 2 ∧
    (notifyStartup (notifyingState noFiles) (quietNotify false)).trace =
      [Event.stat ".uptimed_heartbeat"] :=
  have h := notifyStartup_first_run (notifyingState noFiles) (quietNotify false) (by decide)
    (by rfl) (by rfl) (by rfl)
  ⟨h.2.1, h.2.2.1⟩

theorem notifyStartupSay_failed (s : State) (o : NotifyOracle) (t : Time)
    (h : o.sayErr = true) :
    notifyStartupSay s o t =
      { (s.emit (.say (startupMessage o.hostname t) false)).emit
          (.stderr "Error sending discord notification: say failed\n") with
        didNotifyStartup := 1 } := by
  unfold notifyStartupSay
  rw [if_pos h]

theorem notifyStartupSay_sent (s : State) (o : NotifyOracle) (t : Time)
    (h : o.sayErr = false) :
    notifyStartupSay s o t =
      { s.emit (.say (startupMessage o.hostname t) true) with didNotifyStartup := 2 } := by
  unfold notifyStartupSay
  rw [if_neg (by simp [h])]

/-- What `readLastHeartbeat` does for a file it can stat, open, read and parse. -/
theorem readLastHeartbeat_parsed (s : State) (r : ReadOracle) (contents : String) (t : Time)
    (hf : s.files s.heartbeatFile = some contents) (hr : r.faultless)
    (hp : timeParse r.localZones heartbeatLayout (stringsTrim contents "\n ") = .ok t) :
    readLastHeartbeat s r =
      ((some t, none),
        { s with
          lastHeartbeatBeforeReboot := t
          trace := s.trace ++ [Event.stat s.heartbeatFile, Event.openFile s.heartbeatFile true,
            Event.readAll s.heartbeatFile true, Event.close s.heartbeatFile] }) := by
  obtain ⟨h1, h2, h3⟩ := hr
  simp only [readLastHeartbeat, fileExists, osStat, osOpenFile, State.emit, h1, h2, h3, hf,
    Bool.false_eq_true, if_false]
  simp only [reduceCtorEq, if_false, hf, hp, List.append_assoc, List.singleton_append]
  rfl

/-- The scenario of the retry for a store that holds a time which `time.Parse`
reads back. -/
theorem retry_readable_store (s : State) (t0 : Time) (o1 o2 o3 : NotifyOracle)
    (w : WriteOracle) (hurl : s.discordWebhookURL ≠ "") (h0 : s.didNotifyStartup = 0)
    (ht0 : t0.valid) (hz0 : t0.zoneReadable o1.read.localZones)
    (hfile : s.files s.heartbeatFile = some (t0.Format heartbeatLayout))
    (hr : o1.read.faultless) (hfail : o1.sayErr = true) (hok : o2.sayErr = false) :
    (notifyStartup s o1).didNotifyStartup = 1 ∧
    (notifyStartup s o1).lastHeartbeatBeforeReboot = t0.truncateSecond ∧
    (notifyStartup (writeHeartbeat (notifyStartup s o1) w) o2).trace =
      (writeHeartbeat (notifyStartup s o1) w).trace ++
        [Event.say (startupMessage o2.hostname t0.truncateSecond) true] ∧
    storeReads (notifyStartup (writeHeartbeat (notifyStartup s o1) w) o2).trace =
      storeReads (writeHeartbeat (notifyStartup s o1) w).trace ∧
    sends (notifyStartup (writeHeartbeat (notifyStartup s o1) w) o2).trace =
      sends s.trace ++ [Event.say (startupMessage o1.hostname t0.truncateSecond) false,
        Event.say (startupMessage o2.hostname t0.truncateSecond) true] ∧
    deliveries (notifyStartup (writeHeartbeat (notifyStartup s o1) w) o2).trace =
      deliveries s.trace + 1 ∧
    (notifyStartup (writeHeartbeat (notifyStartup s o1) w) o2).didNotifyStartup = 2 ∧
    notifyStartup (notifyStartup (writeHeartbeat (notifyStartup s o1) w) o2) o3 =
      notifyStartup (writeHeartbeat (notifyStartup s o1) w) o2 := by
  have hparse : timeParse o1.read.localZones heartbeatLayout
      (stringsTrim (t0.Format heartbeatLayout) "\n ") = .ok t0.truncateSecond := by
    rw [stringsTrim_format_self _ _ ht0 hz0]
    exact timeParse_format _ _ ht0 hz0
  have h1 : notifyStartup s o1 =
      { s with
        didNotifyStartup := 1
        lastHeartbeatBeforeReboot := t0.truncateSecond
        trace := s.trace ++ [Event.stat s.heartbeatFile, Event.openFile s.heartbeatFile true,
          Event.readAll s.heartbeatFile true, Event.close s.heartbeatFile,
          Event.say (startupMessage o1.hostname t0.truncateSecond) false,
          Event.stderr "Error sending discord notification: say failed\n"] } := by
    rw [notifyStartup_read s o1 hurl (by omega) (by omega),
      readLastHeartbeat_parsed s o1.read _ _ hfile hr hparse]
    simp only
    rw [notifyStartupSay_failed _ _ _ hfail]
    simp [State.emit]
  have hw1 : (writeHeartbeat (notifyStartup s o1) w).didNotifyStartup = 1 := by
    rw [writeHeartbeat_didNotifyStartup, h1]
  have hw2 : (writeHeartbeat (notifyStartup s o1) w).lastHeartbeatBeforeReboot =
      t0.truncateSecond := by
    rw [writeHeartbeat_lastHeartbeatBeforeReboot, h1]
  have hw3 : (writeHeartbeat (notifyStartup s o1) w).discordWebhookURL ≠ "" := by
    rw [writeHeartbeat_discordWebhookURL, h1]; exact hurl
  have h3 : notifyStartup (writeHeartbeat (notifyStartup s o1) w) o2 =
      { (writeHeartbeat (notifyStartup s o1) w).emit
          (.say (startupMessage o2.hostname t0.truncateSecond) true) with
        didNotifyStartup := 2 } := by
    rw [notifyStartup_failed _ o2 hw3 hw1, hw2, notifyStartupSay_sent _ _ _ hok]
  have hsends : sends (writeHeartbeat (notifyStartup s o1) w).trace =
      sends s.trace ++ [Event.say (startupMessage o1.hostname t0.truncateSecond) false] := by
    rw [writeHeartbeat_sends, h1]
    simp [sends, Event.isSay, List.filter_append]
  have hdel : deliveries (writeHeartbeat (notifyStartup s o1) w).trace = deliveries s.trace := by
    rw [writeHeartbeat_deliveries, h1]
    simp [deliveries, Event.isDelivery, List.filter_append]
  refine ⟨by rw [h1], by rw [h1], by rw [h3]; rfl, ?_, ?_, ?_, by rw [h3], ?_⟩
  · rw [h3]
    simp [State.emit, storeReads, Event.isStoreRead, List.filter_append]
  · rw [h3]
    simp only [State.emit, sends, List.filter_append] at hsends ⊢
    rw [hsends]
    simp [Event.isSay]
  · rw [h3]
    simp only [State.emit, deliveries, List.filter_append, List.length_append] at hdel ⊢
    rw [hdel]
    simp [Event.isDelivery]
  · exact notifyStartup_delivered _ o3 (by rw [h3])

/-- C5: on a host set to `Asia/Kathmandu` the store holds what `writeHeartbeat`
wrote at `T0`, 03:49:05 on 3 January 2006, that is "Tue, 03 Jan 2006 03:49:05
+0545"; a destination is configured and the state is 0. The first
`notifyStartup` reads the store, prints the error of `time.Parse` and leaves
the state 0 without calling `discord.Say`; after a `writeHeartbeat` of `T1`,
ten minutes later, the second `notifyStartup` reads the store again, and no
message has been sent or delivered after it nor after a third call. For every
`T0` of the calendar that `time.Parse` reads back from its text
(`zoneReadable`) the property holds, with `T0` read without its fraction of a
second: after the first call, whose `discord.Say` fails, the state is 1 and
`lastHeartbeatBeforeReboot` is `T0`; after any `writeHeartbeat` (of any time,
with any outcome) the second call makes one call only, the `discord.Say` of the
message of `T0`, so it does not read the store; the messages sent are the two
of `T0`, of which one is delivered; the state is then 2 and a third call
changes nothing. On a host set to `MST`, with 15:04:05 in the store, the
message is the one of 15:04:05, not of 15:14:05. -/
theorem notifyStartup_retry :
    ((notifyingState kathmanduFiles).files (notifyingState kathmanduFiles).heartbeatFile =
       some (kathmanduTime.Format heartbeatLayout) ∧
     (notifyStartup (notifyingState kathmanduFiles) (kathmanduNotify true)).didNotifyStartup
       = 0 ∧
     (notifyStartup (notifyingState kathmanduFiles) (kathmanduNotify true)).trace =
       [Event.stat ".uptimed_heartbeat", Event.openFile ".uptimed_heartbeat" true,
        Event.readAll ".uptimed_heartbeat" true, Event.close ".uptimed_heartbeat",
        Event.stderr "Error getting last heartbeat: parsing time: cannot parse value\n"] ∧
     storeReads (notifyStartup (writeHeartbeat (notifyStartup (notifyingState kathmanduFiles)
       (kathmanduNotify true)) (quietWrite kathmanduLaterTime)) (kathmanduNotify false)).trace =
       storeReads (writeHeartbeat (notifyStartup (notifyingState kathmanduFiles)
         (kathmanduNotify true)) (quietWrite kathmanduLaterTime)).trace ++
         [Event.stat ".uptimed_heartbeat", Event.openFile ".uptimed_heartbeat" true,
          Event.readAll ".uptimed_heartbeat" true] ∧
     (notifyStartup (writeHeartbeat (notifyStartup (notifyingState kathmanduFiles)
       (kathmanduNotify true)) (quietWrite kathmanduLaterTime))
       (kathmanduNotify false)).didNotifyStartup = 0 ∧
     sends (notifyStartup (notifyStartup (writeHeartbeat (notifyStartup
       (notifyingState kathmanduFiles) (kathmanduNotify true)) (quietWrite kathmanduLaterTime))
       (kathmanduNotify false)) (kathmanduNotify false)).trace = [] ∧
     deliveries (notifyStartup (notifyStartup (writeHeartbeat (notifyStartup
       (notifyingState kathmanduFiles) (kathmanduNotify true)) (quietWrite kathmanduLaterTime))
       (kathmanduNotify false)) (kathmanduNotify false)).trace = 0) ∧
    (∀ (s : State) (t0 : Time) (o1 o2 o3 : NotifyOracle) (w : WriteOracle),
      s.discordWebhookURL ≠ "" → s.didNotifyStartup = 0 →
      t0.valid → t0.zoneReadable o1.read.localZones →
      s.files s.heartbeatFile = some (t0.Format heartbeatLayout) →
      o1.read.faultless → o1.sayErr = true → o2.sayErr = false →
      (notifyStartup s o1).didNotifyStartup = 1 ∧
      (notifyStartup s o1).lastHeartbeatBeforeReboot = t0.truncateSecond ∧
      (notifyStartup (writeHeartbeat (notifyStartup s o1) w) o2).trace =
        (writeHeartbeat (notifyStartup s o1) w).trace ++
          [Event.say (startupMessage o2.hostname t0.truncateSecond) true] ∧
      storeReads (notifyStartup (writeHeartbeat (notifyStartup s o1) w) o2).trace =
        storeReads (writeHeartbeat (notifyStartup s o1) w).trace ∧
      sends (notifyStartup (writeHeartbeat (notifyStartup s o1) w) o2).trace =
        sends s.trace ++ [Event.say (startupMessage o1.hostname t0.truncateSecond) false,
          Event.say (startupMessage o2.hostname t0.truncateSecond) true] ∧
      deliveries (notifyStartup (writeHeartbeat (notifyStartup s o1) w) o2).trace =
        deliveries s.trace + 1 ∧
      (notifyStartup (writeHeartbeat (notifyStartup s o1) w) o2).didNotifyStartup = 2 ∧
      notifyStartup (notifyStartup (writeHeartbeat (notifyStartup s o1) w) o2) o3 =
        notifyStartup (writeHeartbeat (notifyStartup s o1) w) o2) ∧
    (sends (notifyStartup (writeHeartbeat (notifyStartup (notifyingState oldFiles)
      (quietNotify true)) (quietWrite laterTime)) (quietNotify false)).trace =
      [Event.say
        "System **web1** has booted. Last heartbeat was at **2006-01-02 15:04:05 -0700 MST**"
        false,
       Event.say
        "System **web1** has booted. Last heartbeat was at **2006-01-02 15:04:05 -0700 MST**"
        true]) := by
  refine ⟨⟨by rfl, by rfl, by rfl, by rfl, by rfl, by rfl, by rfl⟩, ?_, ?_⟩
  · intro s t0 o1 o2 o3 w hurl h0 ht0 hz0 hfile hr hfail hok
    exact retry_readable_store s t0 o1 o2 o3 w hurl h0 ht0 hz0 hfile hr hfail hok
  · exact (retry_readable_store (notifyingState oldFiles) exampleTime (quietNotify true)
      (quietNotify false) (quietNotify false) (quietWrite laterTime) (by decide) (by rfl)
      (by decide) (by decide) (by rfl) (by decide) (by rfl) (by rfl)).2.2.2.2.1

/-! ## The predecessor `uptime.go` -/

theorem legacy_writeHeartbeat_frame (s : Legacy.State) (o : Legacy.WriteOracle) :
    ∃ files evs, Legacy.writeHeartbeat s o = { s with files := files, trace := s.trace ++ evs } ∧
      ∀ e ∈ evs, e.isSay = false ∧ e.isDelivery = false ∧ e.isStoreRead = false := by
  refine ⟨(Legacy.writeHeartbeat s o).files,
    (Legacy.writeHeartbeat s o).trace.drop s.trace.length, ?_, ?_⟩
  · unfold Legacy.writeHeartbeat
    cases Legacy.tempFile s o "" "uptime" with
    | none => simp [Legacy.State.emit]
    | some f => simp only; split_ifs <;> simp [Legacy.State.emit]
  · unfold Legacy.writeHeartbeat
    cases Legacy.tempFile s o "" "uptime" with
    | none => simp [Legacy.State.emit, Event.isSay, Event.isDelivery, Event.isStoreRead]
    | some f =>
      simp only
      split_ifs <;> simp [Legacy.State.emit, Event.isSay, Event.isDelivery, Event.isStoreRead]

theorem legacy_writeHeartbeat_didNotifyStartup (s : Legacy.State) (o : Legacy.WriteOracle) :
    (Legacy.writeHeartbeat s o).didNotifyStartup = s.didNotifyStartup := by
  obtain ⟨files, evs, h, _⟩ := legacy_writeHeartbeat_frame s o
  rw [h]

theorem legacy_writeHeartbeat_lastHeartbeatBeforeReboot (s : Legacy.State)
    (o : Legacy.WriteOracle) :
    (Legacy.writeHeartbeat s o).lastHeartbeatBeforeReboot = s.lastHeartbeatBeforeReboot := by
  obtain ⟨files, evs, h, _⟩ := legacy_writeHeartbeat_frame s o
  rw [h]

theorem legacy_writeHeartbeat_discordWebhookURL (s : Legacy.State) (o : Legacy.WriteOracle) :
    (Legacy.writeHeartbeat s o).discordWebhookURL = s.discordWebhookURL := by
  obtain ⟨files, evs, h, _⟩ := legacy_writeHeartbeat_frame s o
  rw [h]

theorem legacy_writeHeartbeat_sends (s : Legacy.State) (o : Legacy.WriteOracle) :
    sends (Legacy.writeHeartbeat s o).trace = sends s.trace := by
  obtain ⟨files, evs, h, hev⟩ := legacy_writeHeartbeat_frame s o
  rw [h]
  simp only [sends, List.filter_append]
  rw [filter_eq_nil_of_all_false _ evs (fun e he => (hev e he).1), List.append_nil]

theorem legacy_writeHeartbeat_deliveries (s : Legacy.State) (o : Legacy.WriteOracle) :
    deliveries (Legacy.writeHeartbeat s o).trace = deliveries s.trace := by
  obtain ⟨files, evs, h, hev⟩ := legacy_writeHeartbeat_frame s o
  rw [h]
  simp only [deliveries, List.filter_append]
  rw [filter_eq_nil_of_all_false _ evs (fun e he => (hev e he).2.1), List.append_nil]

theorem legacy_writeHeartbeat_storeReads (s : Legacy.State) (o : Legacy.WriteOracle) :
    storeReads (Legacy.writeHeartbeat s o).trace = storeReads s.trace := by
  obtain ⟨files, evs, h, hev⟩ := legacy_writeHeartbeat_frame s o
  rw [h]
  simp only [storeReads, List.filter_append]
  rw [filter_eq_nil_of_all_false _ evs (fun e he => (hev e he).2.2), List.append_nil]

theorem legacy_readLastHeartbeat_frame (fm : Int → String) (s : Legacy.State) (r : ReadOracle) :
    ∃ last evs, (Legacy.readLastHeartbeat fm s r).2 =
        { s with lastHeartbeatBeforeReboot := last, trace := s.trace ++ evs } ∧
      (∀ e ∈ evs, e.isSay = false ∧ e.isDelivery = false) := by
  refine ⟨(Legacy.readLastHeartbeat fm s r).2.lastHeartbeatBeforeReboot,
    (Legacy.readLastHeartbeat fm s r).2.trace.drop s.trace.length, ?_, ?_⟩
  all_goals
    unfold Legacy.readLastHeartbeat Legacy.fileExists
    cases Legacy.osStat s r s.heartbeatFile <;>
      simp only [if_true, Bool.true_eq_false, if_false]
    all_goals
      first
        | simp [Legacy.State.emit, Event.isSay, Event.isDelivery]; done
        | (cases Legacy.osOpenFile _ r s.heartbeatFile <;> simp only
           all_goals
             first
               | simp [Legacy.State.emit, Event.isSay, Event.isDelivery]; done
               | (split_ifs
                  all_goals
                    first
                      | simp [Legacy.State.emit, Event.isSay, Event.isDelivery]; done
                      | (cases Legacy.parseInt64 (stringsTrim _ "\n ") <;>
                          simp [Legacy.State.emit, Event.isSay, Event.isDelivery])))

theorem legacy_notifyStartup_delivered (fm : Int → String) (s : Legacy.State)
    (o : Legacy.NotifyOracle) (h : s.didNotifyStartup = 2) :
    Legacy.notifyStartup fm s o = s := by
  unfold Legacy.notifyStartup
  split_ifs <;> rfl

theorem legacy_notifyStartup_no_destination (fm : Int → String) (s : Legacy.State)
    (o : Legacy.NotifyOracle) (h : s.discordWebhookURL = "") :
    Legacy.notifyStartup fm s o = s := by
  unfold Legacy.notifyStartup
  rw [if_pos h]

theorem legacy_notifyStartupSay_deliveries (s : Legacy.State) (o : Legacy.NotifyOracle)
    (t : String) :
    deliveries (Legacy.notifyStartupSay s o t).trace ≤ deliveries s.trace + 1 ∧
    ((Legacy.notifyStartupSay s o t).didNotifyStartup ≠ 2 →
      deliveries (Legacy.notifyStartupSay s o t).trace = deliveries s.trace) := by
  unfold Legacy.notifyStartupSay
  split_ifs <;> simp [Legacy.State.emit, deliveries, Event.isDelivery, List.filter_append]

theorem legacy_notifyStartup_deliveries (fm : Int → String) (s : Legacy.State)
    (o : Legacy.NotifyOracle) :
    deliveries (Legacy.notifyStartup fm s o).trace ≤ deliveries s.trace + 1 ∧
    ((Legacy.notifyStartup fm s o).didNotifyStartup ≠ 2 →
      deliveries (Legacy.notifyStartup fm s o).trace = deliveries s.trace) := by
  by_cases hurl : s.discordWebhookURL = ""
  · rw [legacy_notifyStartup_no_destination fm s o hurl]; simp
  by_cases h2 : s.didNotifyStartup = 2
  · rw [legacy_notifyStartup_delivered fm s o h2]; simp
  unfold Legacy.notifyStartup
  rw [if_neg hurl, if_neg h2]
  by_cases h1 : s.didNotifyStartup = 1
  · rw [if_pos h1]
    exact legacy_notifyStartupSay_deliveries s o _
  rw [if_neg h1]
  obtain ⟨last, evs, hs1, hev⟩ := legacy_readLastHeartbeat_frame fm s o.read
  have hd : deliveries (Legacy.readLastHeartbeat fm s o.read).2.trace = deliveries s.trace := by
    rw [hs1]
    simp only [deliveries, List.filter_append]
    rw [filter_eq_nil_of_all_false _ evs (fun e he => (hev e he).2), List.append_nil]
  rcases hq : Legacy.readLastHeartbeat fm s o.read with ⟨⟨res, err⟩, s1⟩
  rw [hq] at hd
  simp only at hd
  cases err with
  | some e =>
    simp only
    simp [Legacy.State.emit, deliveries, Event.isDelivery, List.filter_append] at hd ⊢
    omega
  | none =>
    cases res with
    | none =>
      simp only
      omega
    | some t =>
      simp only
      have := legacy_notifyStartupSay_deliveries s1 o t
      rw [hd] at this
      exact this

theorem legacy_mainLoop_cons (fm : Int → String) (s : Legacy.State) (o : Legacy.TickOracle)
    (os : List Legacy.TickOracle) :
    Legacy.mainLoop fm s (o :: os) = Legacy.mainLoop fm (Legacy.tick fm s o) os := rfl

theorem legacy_mainLoop_append (fm : Int → String) (s : Legacy.State)
    (pre post : List Legacy.TickOracle) :
    Legacy.mainLoop fm s (pre ++ post) = Legacy.mainLoop fm (Legacy.mainLoop fm s pre) post := by
  unfold Legacy.mainLoop
  rw [List.foldl_append]

theorem legacy_mainLoop_delivered (fm : Int → String) (os : List Legacy.TickOracle) :
    ∀ (s : Legacy.State), s.didNotifyStartup = 2 →
    (Legacy.mainLoop fm s os).didNotifyStartup = 2 ∧
    sends (Legacy.mainLoop fm s os).trace = sends s.trace ∧
    storeReads (Legacy.mainLoop fm s os).trace = storeReads s.trace := by
  induction os with
  | nil => intro s h; exact ⟨h, rfl, rfl⟩
  | cons o os ih =>
    intro s h
    have ht : Legacy.tick fm s o = Legacy.writeHeartbeat s o.write := by
      unfold Legacy.tick
      rw [legacy_notifyStartup_delivered fm s o.notify h]
    obtain ⟨k1, k2, k3⟩ := ih (Legacy.tick fm s o)
      (by rw [ht, legacy_writeHeartbeat_didNotifyStartup, h])
    rw [legacy_mainLoop_cons]
    refine ⟨k1, ?_, ?_⟩
    · rw [k2, ht, legacy_writeHeartbeat_sends]
    · rw [k3, ht, legacy_writeHeartbeat_storeReads]

theorem legacy_mainLoop_deliveries (fm : Int → String) (d : Nat)
    (os : List Legacy.TickOracle) : ∀ (s : Legacy.State),
    deliveries s.trace ≤ d + 1 → (s.didNotifyStartup ≠ 2 → deliveries s.trace = d) →
    deliveries (Legacy.mainLoop fm s os).trace ≤ d + 1 := by
  induction os with
  | nil => intro s h _; exact h
  | cons o os ih =>
    intro s hle hne
    rw [legacy_mainLoop_cons]
    have hn := legacy_notifyStartup_deliveries fm s o.notify
    apply ih
    · unfold Legacy.tick
      rw [legacy_writeHeartbeat_deliveries]
      by_cases h2 : s.didNotifyStartup = 2
      · rw [legacy_notifyStartup_delivered fm s o.notify h2]; exact hle
      · have := hne h2
        omega
    · unfold Legacy.tick
      rw [legacy_writeHeartbeat_deliveries, legacy_writeHeartbeat_didNotifyStartup]
      intro h2
      have h2s : s.didNotifyStartup ≠ 2 := by
        intro h
        rw [legacy_notifyStartup_delivered fm s o.notify h] at h2
        exact h2 h
      rw [hn.2 h2, hne h2s]

theorem legacy_mainLoop_no_destination (fm : Int → String) (os : List Legacy.TickOracle) :
    ∀ (s : Legacy.State), s.discordWebhookURL = "" →
    sends (Legacy.mainLoop fm s os).trace = sends s.trace ∧
    storeReads (Legacy.mainLoop fm s os).trace = storeReads s.trace ∧
    (Legacy.mainLoop fm s os).didNotifyStartup = s.didNotifyStartup ∧
    (Legacy.mainLoop fm s os).lastHeartbeatBeforeReboot = s.lastHeartbeatBeforeReboot := by
  induction os with
  | nil => intro s _; exact ⟨rfl, rfl, rfl, rfl⟩
  | cons o os ih =>
    intro s h
    have ht : Legacy.tick fm s o = Legacy.writeHeartbeat s o.write := by
      unfold Legacy.tick
      rw [legacy_notifyStartup_no_destination fm s o.notify h]
    obtain ⟨k2, k3, k4, k5⟩ := ih (Legacy.tick fm s o)
      (by rw [ht, legacy_writeHeartbeat_discordWebhookURL, h])
    rw [legacy_mainLoop_cons]
    refine ⟨?_, ?_, ?_, ?_⟩
    · rw [k2, ht, legacy_writeHeartbeat_sends]
    · rw [k3, ht, legacy_writeHeartbeat_storeReads]
    · rw [k4, ht, legacy_writeHeartbeat_didNotifyStartup]
    · rw [k5, ht, legacy_writeHeartbeat_lastHeartbeatBeforeReboot]

/-- Trimming line feeds and blanks around a decimal count gives the count. -/
theorem stringsTrim_toString (n : Nat) (pre post : List Char)
    (hpre : ∀ c ∈ pre, c = '\n' ∨ c = ' ') (hpost : ∀ c ∈ post, c = '\n' ∨ c = ' ') :
    stringsTrim ⟨pre ++ ((toString n).data ++ post)⟩ "\n " = toString n := by
  have hd : (toString n).data = Nat.toDigits 10 n := rfl
  have hall := allDigits_toDigits n
  refine stringsTrim_surrounded pre _ post "\n " (fun c hc => by simpa using hpre c hc)
    (fun c hc => by simpa using hpost c hc) ?_ ?_
  · intro c hc
    rw [hd] at hc
    exact isDigit_not_cut c (List.all_eq_true.mp hall c (List.mem_of_mem_head? hc))
  · intro c hc
    rw [hd] at hc
    exact isDigit_not_cut c (List.all_eq_true.mp hall c (List.mem_of_getLast?_eq_some hc))

theorem legacy_readLastHeartbeat_contents (fm : Int → String) (s : Legacy.State)
    (r : ReadOracle) (contents : String)
    (hf : s.files s.heartbeatFile = some contents) (hr : r.faultless) :
    (Legacy.readLastHeartbeat fm s r).1 =
      match Legacy.parseInt64 (stringsTrim contents "\n ") with
      | .error err => (none, some err)
      | .ok nano => (some (fm nano), none) := by
  obtain ⟨h1, h2, h3⟩ := hr
  simp only [Legacy.readLastHeartbeat, Legacy.fileExists, Legacy.osStat, Legacy.osOpenFile,
    Legacy.State.emit, h1, h2, h3, hf, Bool.false_eq_true, if_false]
  simp only [reduceCtorEq, if_false, hf]
  cases Legacy.parseInt64 (stringsTrim contents "\n ") <;> rfl

/-- C8, as amended: for a file whose contents are a text that `time.Parse`
reads with `heartbeatLayout` as the time `t`, surrounded by any number of line
feeds and blanks, `readLastHeartbeat`, when the file can be opened and read,
returns `t` and no error; what `Format` prints with `heartbeatLayout` for a time
of the calendar that `time.Parse` reads back (`zoneReadable`) is such a text,
read as that time without its fraction of a second; `readLastHeartbeat` returns
an error only when `fileExists` answered true and the file cannot be opened, or
cannot be read, or its contents trimmed of line feeds and blanks do not parse;
and the `readLastHeartbeat` of `uptime.go` reads a decimal count surrounded by
line feeds and blanks in the same way. -/
theorem readLastHeartbeat_trims (s : State) (r : ReadOracle) (text : String) (t : Time)
    (pre post : List Char)
    (hparse : timeParse r.localZones heartbeatLayout text = .ok t)
    (hpre : ∀ c ∈ pre, c = '\n' ∨ c = ' ') (hpost : ∀ c ∈ post, c = '\n' ∨ c = ' ')
    (hfile : s.files s.heartbeatFile = some ⟨pre ++ (text.data ++ post)⟩)
    (hr : r.faultless) :
    (readLastHeartbeat s r).1 = (some t, none) ∧
    (∀ t0 : Time, t0.valid → t0.zoneReadable r.localZones →
      timeParse r.localZones heartbeatLayout (t0.Format heartbeatLayout) =
        .ok t0.truncateSecond) ∧
    (∀ (s1 : State) (r1 : ReadOracle) (err : Error), (readLastHeartbeat s1 r1).1.2 = some err →
      (fileExists s1 r1 s1.heartbeatFile).1 = true ∧
      (osOpenFile s1 r1 s1.heartbeatFile = .error err ∨
       (∃ c, osOpenFile s1 r1 s1.heartbeatFile = .ok c ∧ r1.readErr = true) ∨
       (∃ c, osOpenFile s1 r1 s1.heartbeatFile = .ok c ∧ r1.readErr = false ∧
         timeParse r1.localZones heartbeatLayout (stringsTrim c "\n ") = .error err))) ∧
    (∀ (fm : Int → String) (ls : Legacy.State) (n : Nat), n < 2 ^ 63 →
      ls.files ls.heartbeatFile = some ⟨pre ++ ((toString n).data ++ post)⟩ →
      (Legacy.readLastHeartbeat fm ls r).1 = (some (fm n), none)) := by
  refine ⟨?_, fun t0 h0 hz0 => timeParse_format _ t0 h0 hz0, readLastHeartbeat_error, ?_⟩
  · rw [readLastHeartbeat_contents s r _ hfile hr,
      stringsTrim_of_parse r.localZones text.data t hparse pre post hpre hpost, hparse]
  · intro fm ls n hn hlf
    rw [legacy_readLastHeartbeat_contents fm ls r _ hlf hr, stringsTrim_toString n pre post
      hpre hpost]
    unfold Legacy.parseInt64
    rw [atoi_toString n hn]

/-- C8, as amended, at a concrete input: a blank and a line feed before the
text, two line feeds after it; the text has the names in small letters, an hour
of one digit and a fraction of a second, which `time.Parse` accepts. -/
theorem readLastHeartbeat_trims_witness :
    paddedFiles (initialState paddedFiles).heartbeatFile =
      some " \nmon, 02 jan 2006 5:04:05.5 MST\n\n" ∧
    (readLastHeartbeat (initialState paddedFiles) quietRead).1 =
      (some ⟨2006, 1, 2, 5, 4, 5, 500000000, "MST", -25200⟩, none) :=
  ⟨by rfl, (readLastHeartbeat_trims (initialState paddedFiles) quietRead
    "mon, 02 jan 2006 5:04:05.5 MST" ⟨2006, 1, 2, 5, 4, 5, 500000000, "MST", -25200⟩ [' ', '\n']
    ['\n', '\n'] (by rfl) (by decide) (by decide) (by rfl) (by decide)).1⟩

/-- C8 fails as stated: the contents are a formatted time followed by a
carriage return and a line feed, both white space, no call fails, and
`readLastHeartbeat` returns an error, because the carriage return is not trimmed. -/
theorem readLastHeartbeat_crlf_error :
    crlfFiles (initialState crlfFiles).heartbeatFile =
      some (exampleTime.Format heartbeatLayout ++ "\r\n") ∧
    "\r\n".data.all isSpace = true ∧
    stringsTrim (exampleTime.Format heartbeatLayout ++ "\r\n") "\n " =
      exampleTime.Format heartbeatLayout ++ "\r" ∧
    (readLastHeartbeat (initialState crlfFiles) quietRead).1 =
      (none, some "parsing time: cannot parse value") := by
  refine ⟨by rfl, by decide, by decide, by rfl⟩

/-- C4: in every run of the loop from the start of a process (no call made
yet), in the state 0 as in any other state, whatever the files hold and
whatever the outcomes of the calls are, at most one call of `discord.Say`
succeeds; once `didNotifyStartup` is 2, the state stays 2 through every later
iteration, in which no message is sent and the store is not read; and a call of
`notifyStartup` in the state 2 changes nothing. The same holds of `uptime.go`. -/
theorem notifyStartup_at_most_once (s : State) (os : List TickOracle) (htr : s.trace = [])
    (fm : Int → String) (ls : Legacy.State) (los : List Legacy.TickOracle)
    (hltr : ls.trace = []) :
    (deliveries (mainLoop s os).trace ≤ 1 ∧
     (∀ pre post : List TickOracle, os = pre ++ post → (mainLoop s pre).didNotifyStartup = 2 →
       (mainLoop s os).didNotifyStartup = 2 ∧
       sends (mainLoop s os).trace = sends (mainLoop s pre).trace ∧
       storeReads (mainLoop s os).trace = storeReads (mainLoop s pre).trace) ∧
     (∀ (s1 : State) (o : NotifyOracle), s1.didNotifyStartup = 2 → notifyStartup s1 o = s1)) ∧
    (deliveries (Legacy.mainLoop fm ls los).trace ≤ 1 ∧
     (∀ pre post : List Legacy.TickOracle, los = pre ++ post →
       (Legacy.mainLoop fm ls pre).didNotifyStartup = 2 →
       (Legacy.mainLoop fm ls los).didNotifyStartup = 2 ∧
       sends (Legacy.mainLoop fm ls los).trace = sends (Legacy.mainLoop fm ls pre).trace ∧
       storeReads (Legacy.mainLoop fm ls los).trace =
         storeReads (Legacy.mainLoop fm ls pre).trace) ∧
     (∀ (s1 : Legacy.State) (o : Legacy.NotifyOracle), s1.didNotifyStartup = 2 →
       Legacy.notifyStartup fm s1 o = s1)) := by
  refine ⟨⟨?_, ?_, notifyStartup_delivered⟩, ⟨?_, ?_, legacy_notifyStartup_delivered fm⟩⟩
  · have hd : deliveries s.trace = 0 := by rw [htr]; rfl
    have := mainLoop_deliveries 0 os s (by omega) (fun _ => hd)
    omega
  · intro pre post hos hpre
    rw [hos, mainLoop_append]
    exact mainLoop_delivered post _ hpre
  · have hd : deliveries ls.trace = 0 := by rw [hltr]; rfl
    have := legacy_mainLoop_deliveries fm 0 los ls (by omega) (fun _ => hd)
    omega
  · intro pre post hos hpre
    rw [hos, legacy_mainLoop_append]
    exact legacy_mainLoop_delivered fm post _ hpre

/-- C4 at a concrete input: two iterations over a previous heartbeat, the
first `discord.Say` failing and the second succeeding, in both programs. -/
theorem notifyStartup_at_most_once_witness :
    deliveries (mainLoop (notifyingState oldFiles)
      [⟨quietNotify true, quietWrite exampleTime⟩,
       ⟨quietNotify false, quietWrite laterTime⟩]).trace ≤ 1 ∧
    deliveries (Legacy.mainLoop exampleFormatMinute (legacyNotifyingState legacyFiles)
      [⟨legacyQuietNotify true, legacyQuietWrite 1136239445000000000⟩,
       ⟨legacyQuietNotify false, legacyQuietWrite 1136240045000000000⟩]).trace ≤ 1 :=
  have h := notifyStartup_at_most_once (notifyingState oldFiles)
    [⟨quietNotify true, quietWrite exampleTime⟩, ⟨quietNotify false, quietWrite laterTime⟩]
    (by rfl) exampleFormatMinute (legacyNotifyingState legacyFiles)
    [⟨legacyQuietNotify true, legacyQuietWrite 1136239445000000000⟩,
     ⟨legacyQuietNotify false, legacyQuietWrite 1136240045000000000⟩] (by rfl)
  ⟨h.1.1, h.2.1⟩

/-- C9: when `discord.WebhookURL` is empty, a call of `notifyStartup` changes
nothing in any state (no call is made, `didNotifyStartup` and
`lastHeartbeatBeforeReboot` keep their values), and through any number of
iterations of the loop no message is sent, the store is not read, and the two
variables keep their values. The same holds of `uptime.go`. -/
theorem notifyStartup_without_destination (s : State) (hurl : s.discordWebhookURL = "")
    (fm : Int → String) (ls : Legacy.State) (hlurl : ls.discordWebhookURL = "") :
    ((∀ o : NotifyOracle, notifyStartup s o = s) ∧
     (∀ os : List TickOracle,
       sends (mainLoop s os).trace = sends s.trace ∧
       storeReads (mainLoop s os).trace = storeReads s.trace ∧
       (mainLoop s os).didNotifyStartup = s.didNotifyStartup ∧
       (mainLoop s os).lastHeartbeatBeforeReboot = s.lastHeartbeatBeforeReboot)) ∧
    ((∀ o : Legacy.NotifyOracle, Legacy.notifyStartup fm ls o = ls) ∧
     (∀ os : List Legacy.TickOracle,
       sends (Legacy.mainLoop fm ls os).trace = sends ls.trace ∧
       storeReads (Legacy.mainLoop fm ls os).trace = storeReads ls.trace ∧
       (Legacy.mainLoop fm ls os).didNotifyStartup = ls.didNotifyStartup ∧
       (Legacy.mainLoop fm ls os).lastHeartbeatBeforeReboot = ls.lastHeartbeatBeforeReboot)) :=
  ⟨⟨fun o => notifyStartup_no_destination s o hurl, fun os => mainLoop_no_destination os s hurl⟩,
   ⟨fun o => legacy_notifyStartup_no_destination fm ls o hlurl,
    fun os => legacy_mainLoop_no_destination fm os ls hlurl⟩⟩

/-- C9 at a concrete input: a previous heartbeat on disk and no webhook, in
both programs. -/
theorem notifyStartup_without_destination_witness :
    notifyStartup (runningState oldFiles) (quietNotify false) = runningState oldFiles ∧
    sends (mainLoop (runningState oldFiles)
      [⟨quietNotify false, quietWrite exampleTime⟩,
       ⟨quietNotify false, quietWrite laterTime⟩]).trace = sends (runningState oldFiles).trace ∧
    Legacy.notifyStartup exampleFormatMinute (Legacy.initialState legacyFiles)
      (legacyQuietNotify false) = Legacy.initialState legacyFiles :=
  have h := notifyStartup_without_destination (runningState oldFiles) (by rfl)
    exampleFormatMinute (Legacy.initialState legacyFiles) (by rfl)
  ⟨h.1.1 (quietNotify false), (h.1.2 _).1, h.2.1 (legacyQuietNotify false)⟩


end Uptimed
